import Mathlib

/-! KnowledgeGraph backend: result normalizer and pagination coercion

A shallow embedding of `Dlist/backend/app.js`: the JavaScript values the
handlers compute with, the `/knowledgeGraph` and `/knowledgeGraph/node/:nodeId`
normalizers (the `forEach` loops that build `nodes` and `links`), the
`limit` / `skip` coercion of `/knowledgeGraph` and `/poems`, the query text of
`/knowledgeGraph`, the handler of `/knowledgeGraph/node/:nodeId` with its
`parseInt` parameters, the handler of `/poems` with its `seen` map and its
fallback scan of JSON files, the limit of `/poems/raw`, and the order in
which the layers of the application are registered. Of the front end
it embeds `degreeMap` and `limitedGraphData` of `components/KnowledgeGraph.js`,
`handleSearch` of `App.js`, `escapeRegExp` and `highlightText` of
`components/Poems.js`.
-/

namespace KnowledgeGraph

/-! ## JavaScript values -/

/-- A JavaScript number: `NaN`, a finite value or one of the two infinities.
Finite values are exact rationals (binary rounding and overflow to an infinity
are not represented) and `-0` is identified with `0`. -/
inductive JSNum where
  | nan
  | fin (q : ℚ)
  | posInf
  | negInf
deriving DecidableEq

/-- The JavaScript values that reach the handlers. `obj` stands for any object
(an array, a driver `Integer`, a temporal value, ...): only its reference is
kept, which is all that `||` and `===` look at. -/
inductive JSVal where
  | undefined
  | null
  | bool (b : Bool)
  | num (x : JSNum)
  | str (s : String)
  | obj (ref : Nat)
deriving DecidableEq

/-- JavaScript `ToBoolean`. -/
def JSVal.truthy : JSVal → Bool
  | .undefined => false
  | .null => false
  | .bool b => b
  | .num .nan => false
  | .num (.fin q) => decide (q ≠ 0)
  | .num .posInf => true
  | .num .negInf => true
  | .str s => decide (s ≠ "")
  | .obj _ => true

/-- The JavaScript expression `a || b`. -/
def JSVal.or (a b : JSVal) : JSVal :=
  if a.truthy then a else b

/-- The JavaScript expression `a === b`: same type and same value, objects by
reference, and `NaN` equal to nothing. -/
def strictEq (a b : JSVal) : Bool :=
  if a = .num .nan ∨ b = .num .nan then false else decide (a = b)

/-- A property bag (`properties(n)`, `node.properties`): keys with their values. -/
abbrev Props := List (String × JSVal)

/-- Property access `props.key`: the stored value, `undefined` when the key is
absent. -/
def Props.get (props : Props) (key : String) : JSVal :=
  (props.lookup key).getD .undefined

/-- The number `identity.toInt()` as a JavaScript value. -/
def JSVal.ofInt (i : Int) : JSVal :=
  .num (.fin (i : ℚ))

/-- Stringification `String(neoId)` of a value that is `null` or an integer. -/
def stringOfNeoId : Option Int → String
  | none => "null"
  | some i => toString i

/-! ## Driver rows and the view model -/

/-- A driver node object: `identity` holds the integer that `identity.toInt()`
returns, `none` when the object has no identity; `labels` and `properties`
may be missing as well. -/
structure RawNode where
  identity : Option Int
  labels : Option (List String)
  properties : Option Props
deriving DecidableEq

/-- A driver relationship object, of which the unscoped normalizer reads `type`. -/
structure RawRel where
  type : String
deriving DecidableEq

/-- One record of the `/knowledgeGraph` query: the columns `n`, `r`, `m`,
`sourceLabels`, `targetLabels`, `sourceProps`, `targetProps`. -/
structure Record where
  n : Option RawNode
  r : RawRel
  m : Option RawNode
  sourceLabels : List String
  targetLabels : List String
  sourceProps : Props
  targetProps : Props
deriving DecidableEq

/-- A node of the view model (`nodes.push({ id, label, type, group, properties, neo4jId })`). -/
structure GraphNode where
  id : JSVal
  label : JSVal
  type : JSVal
  group : JSVal
  properties : Props
  neo4jId : Option Int
deriving DecidableEq

/-- A link of the view model (`links.push({ source, target, type })`). -/
structure GraphLink where
  source : JSVal
  target : JSVal
  type : String
deriving DecidableEq

/-- The response body `{ nodes, links }`. -/
structure GraphData where
  nodes : List GraphNode
  links : List GraphLink
deriving DecidableEq

/-! ## `GET /knowledgeGraph`: the `records.forEach` normalizer -/

/-- The element `labels[0]` of a label array, `undefined` when it is empty. -/
def firstLabel (labels : List String) : JSVal :=
  match labels.head? with
  | some l => .str l
  | none => .undefined

/-- `record.get('sourceLabels')[0] || 'unknown'`. -/
def node1Type (record : Record) : JSVal :=
  (firstLabel record.sourceLabels).or (.str "unknown")

/-- `record.get('targetLabels')[0] || 'unknown'`. -/
def node2Type (record : Record) : JSVal :=
  (firstLabel record.targetLabels).or (.str "unknown")

/-- `rawN && rawN.identity ? rawN.identity.toInt() : null`. -/
def node1NeoId (record : Record) : Option Int :=
  match record.n with
  | some rawN => rawN.identity
  | none => none

/-- `rawM && rawM.identity ? rawM.identity.toInt() : null`. -/
def node2NeoId (record : Record) : Option Int :=
  match record.m with
  | some rawM => rawM.identity
  | none => none

/-- `node1Props.name || node1Props.title || node1Props.genre || String(node1NeoId)`. -/
def node1Label (record : Record) : JSVal :=
  (((record.sourceProps.get "name").or (record.sourceProps.get "title")).or
    (record.sourceProps.get "genre")).or (.str (stringOfNeoId (node1NeoId record)))

/-- `node2Props.name || node2Props.title || node2Props.genre || String(node2NeoId)`. -/
def node2Label (record : Record) : JSVal :=
  (((record.targetProps.get "name").or (record.targetProps.get "title")).or
    (record.targetProps.get "genre")).or (.str (stringOfNeoId (node2NeoId record)))

/-- `node1NeoId !== null ? node1NeoId : node1Label`. -/
def node1Id (record : Record) : JSVal :=
  match node1NeoId record with
  | some i => JSVal.ofInt i
  | none => node1Label record

/-- `node2NeoId !== null ? node2NeoId : node2Label`. -/
def node2Id (record : Record) : JSVal :=
  match node2NeoId record with
  | some i => JSVal.ofInt i
  | none => node2Label record

/-- The object literal pushed for the source entity of a record. -/
def sourceNode (record : Record) : GraphNode :=
  { id := node1Id record
    label := node1Label record
    type := node1Type record
    group := node1Type record
    properties := record.sourceProps
    neo4jId := node1NeoId record }

/-- The object literal pushed for the target entity of a record. -/
def targetNode (record : Record) : GraphNode :=
  { id := node2Id record
    label := node2Label record
    type := node2Type record
    group := node2Type record
    properties := record.targetProps
    neo4jId := node2NeoId record }

/-- The statement `if (!nodes.find(node => node.id === c.id)) nodes.push(c)`:
`find` yields an element (an object, hence truthy) or `undefined`. -/
def pushIfAbsent (nodes : List GraphNode) (c : GraphNode) : List GraphNode :=
  if (nodes.find? (fun node => strictEq node.id c.id)).isNone then nodes ++ [c] else nodes

/-- The link pushed for a record. -/
def linkOf (record : Record) : GraphLink :=
  { source := node1Id record
    target := node2Id record
    type := record.r.type }

/-- The body of `result.records.forEach(record => ...)` of `/knowledgeGraph`,
acting on the two arrays `nodes` and `links`. -/
def processRecord (acc : GraphData) (record : Record) : GraphData :=
  { nodes := pushIfAbsent (pushIfAbsent acc.nodes (sourceNode record)) (targetNode record)
    links := acc.links ++ [linkOf record] }

/-- The `graphData` answered by `/knowledgeGraph` for the records of the query. -/
def knowledgeGraph (records : List Record) : GraphData :=
  records.foldl processRecord { nodes := [], links := [] }

/-- The entities of the records in the order the loop meets them: source then
target of the first record, source then target of the second, ... -/
def occurrences (records : List Record) : List GraphNode :=
  records.flatMap (fun record => [sourceNode record, targetNode record])

/-- A list of ids with every later repetition of an id removed. -/
def removeLaterRepeats : List JSVal → List JSVal
  | [] => []
  | x :: xs => x :: (removeLaterRepeats xs).filter (fun y => decide (y ≠ x))

/-! ## `GET /knowledgeGraph/node/:nodeId`: the `nodesResult.records.forEach` normalizer -/

/-- `props.name || props.title || props.genre || String(neoId)` with
`props = raw.properties || {}` and `neoId = raw.identity ? raw.identity.toInt() : null`. -/
def labelText (raw : RawNode) : JSVal :=
  ((((raw.properties.getD []).get "name").or ((raw.properties.getD []).get "title")).or
    ((raw.properties.getD []).get "genre")).or (.str (stringOfNeoId raw.identity))

/-- `neoId !== null ? neoId : labelText`. -/
def idVal (raw : RawNode) : JSVal :=
  match raw.identity with
  | some i => JSVal.ofInt i
  | none => labelText raw

/-- The object literal pushed for a record of the node query
(`labels = raw.labels || []`). -/
def centeredNode (raw : RawNode) : GraphNode :=
  { id := idVal raw
    label := labelText raw
    type := (firstLabel (raw.labels.getD [])).or (.str "unknown")
    group := (firstLabel (raw.labels.getD [])).or (.str "unknown")
    properties := raw.properties.getD []
    neo4jId := raw.identity }

/-- The `nodes` array built from the records (column `nd`) of the node query. -/
def centeredNodes (recs : List RawNode) : List GraphNode :=
  recs.foldl (fun nodes raw => pushIfAbsent nodes (centeredNode raw)) []

/-! ## Query-string numbers: `Number(...)`, `isNaN`, `Math.floor`, `Math.max` -/

/-- The code points `StringToNumber` strips from both ends (WhiteSpace and
LineTerminator). -/
def isStrWhiteSpace (c : Char) : Bool :=
  decide (c.toNat ∈ [0x09, 0x0A, 0x0B, 0x0C, 0x0D, 0x20, 0xA0, 0x1680, 0x2028, 0x2029,
    0x202F, 0x205F, 0x3000, 0xFEFF]) || (decide (0x2000 ≤ c.toNat) && decide (c.toNat ≤ 0x200A))

/-- The input of `StringToNumber` without leading and trailing white space. -/
def trimWhiteSpace (cs : List Char) : List Char :=
  ((cs.dropWhile isStrWhiteSpace).reverse.dropWhile isStrWhiteSpace).reverse

/-- The value of a digit character in bases up to 16. -/
def digitValue (c : Char) : Option Nat :=
  if '0'.toNat ≤ c.toNat ∧ c.toNat ≤ '9'.toNat then some (c.toNat - '0'.toNat)
  else if 'a'.toNat ≤ c.toNat ∧ c.toNat ≤ 'f'.toNat then some (c.toNat - 'a'.toNat + 10)
  else if 'A'.toNat ≤ c.toNat ∧ c.toNat ≤ 'F'.toNat then some (c.toNat - 'A'.toNat + 10)
  else none

/-- Whether `c` is a digit of the given base. -/
def isDigitOf (base : Nat) (c : Char) : Bool :=
  match digitValue c with
  | some d => decide (d < base)
  | none => false

/-- The number written by a run of digits in the given base. -/
def digitsValue (base : Nat) (cs : List Char) : Nat :=
  cs.foldl (fun acc c => acc * base + (digitValue c).getD 0) 0

/-- The finite value `m * 10 ^ e`. -/
def scale10 (m : Int) (e : Int) : ℚ :=
  if 0 ≤ e then mkRat (m * 10 ^ e.toNat) 1 else mkRat m (10 ^ (-e).toNat)

/-- The `ExponentPart` that may end a decimal literal: nothing (exponent 0) or
`e` / `E`, an optional sign and at least one digit; `none` when what is left
is anything else. -/
def exponentPart (cs : List Char) : Option Int :=
  match cs with
  | [] => some 0
  | c :: t =>
    if c = 'e' ∨ c = 'E' then
      match t with
      | '+' :: ds =>
        if ds ≠ [] ∧ ds.all (isDigitOf 10) then some (digitsValue 10 ds : Int) else none
      | '-' :: ds =>
        if ds ≠ [] ∧ ds.all (isDigitOf 10) then some (-(digitsValue 10 ds : Int)) else none
      | ds =>
        if ds ≠ [] ∧ ds.all (isDigitOf 10) then some (digitsValue 10 ds : Int) else none
    else none

/-- `StrUnsignedDecimalLiteral`: `Infinity`, or digits with an optional
fraction and exponent (`12`, `12.`, `12.5`, `.5`, `1e3`); anything else is `NaN`. -/
def strUnsignedDecimalLiteral (cs : List Char) : JSNum :=
  if cs = "Infinity".toList then .posInf
  else
    let intPart := cs.takeWhile (isDigitOf 10)
    let rest := cs.dropWhile (isDigitOf 10)
    let fracPart := match rest with
      | '.' :: t => t.takeWhile (isDigitOf 10)
      | _ => []
    let rest2 := match rest with
      | '.' :: t => t.dropWhile (isDigitOf 10)
      | _ => rest
    if intPart = [] ∧ fracPart = [] then .nan
    else
      match exponentPart rest2 with
      | some e => .fin (scale10 (digitsValue 10 (intPart ++ fracPart)) (e - fracPart.length))
      | none => .nan

/-- `NonDecimalIntegerLiteral`: `0x`, `0o` or `0b` (either case) followed by at
least one digit of that base. -/
def nonDecimalIntegerLiteral (cs : List Char) : Option Nat :=
  match cs with
  | '0' :: p :: ds =>
    let base := if p = 'x' ∨ p = 'X' then 16 else if p = 'o' ∨ p = 'O' then 8
      else if p = 'b' ∨ p = 'B' then 2 else 0
    if base ≠ 0 ∧ ds ≠ [] ∧ ds.all (isDigitOf base) then some (digitsValue base ds) else none
  | _ => none

/-- Negation of a number. -/
def JSNum.neg : JSNum → JSNum
  | .nan => .nan
  | .fin q => .fin (-q)
  | .posInf => .negInf
  | .negInf => .posInf

/-- The conversion `Number(s)` of a string (`StringToNumber`): the empty or
blank string is `0`, a numeric literal is its value, anything else is `NaN`.
The value of a literal is exact: the rounding to the nearest double, which
changes integers above 2^53, is not represented. -/
def Number (s : String) : JSNum :=
  let cs := trimWhiteSpace s.toList
  if cs = [] then .fin 0
  else
    match nonDecimalIntegerLiteral cs with
    | some n => .fin (mkRat n 1)
    | none =>
      match cs with
      | '+' :: t => strUnsignedDecimalLiteral t
      | '-' :: t => (strUnsignedDecimalLiteral t).neg
      | _ => strUnsignedDecimalLiteral cs

/-- The global `isNaN` on a number. -/
def isNaN (x : JSNum) : Bool :=
  decide (x = .nan)

/-- The function `Math.floor`. -/
def mathFloor : JSNum → JSNum
  | .nan => .nan
  | .fin q => .fin ((Rat.floor q : Int) : ℚ)
  | .posInf => .posInf
  | .negInf => .negInf

/-- The function `Math.max` on two arguments. -/
def mathMax : JSNum → JSNum → JSNum
  | .nan, _ => .nan
  | _, .nan => .nan
  | .posInf, _ => .posInf
  | _, .posInf => .posInf
  | .negInf, y => y
  | x, .negInf => x
  | .fin p, .fin q => .fin (max p q)

/-- The order `0 ≤ x` on numbers (false for `NaN`). -/
def JSNum.nonneg : JSNum → Prop
  | .nan => False
  | .fin q => 0 ≤ q
  | .posInf => True
  | .negInf => False

/-! ## `limit` and `skip` of `/knowledgeGraph` and `/poems`

A query parameter is `undefined` (`none`) or the string the client sent
(repeated and bracketed parameters, which the framework turns into arrays and
objects, are left out). -/

/-- The `limit` of `/knowledgeGraph`, lines 66, 69 and 73. -/
def knowledgeGraphLimit (queryLimit : Option String) : JSNum :=
  let limit := match queryLimit with
    | some s => if s ≠ "" then Number s else .fin 200
    | none => .fin 200
  let limit := if isNaN limit then .fin 200 else limit
  mathMax (.fin 0) (mathFloor limit)

/-- The `skip` of `/knowledgeGraph`, lines 67, 70 and 74. -/
def knowledgeGraphSkip (querySkip : Option String) : JSNum :=
  let skip := match querySkip with
    | some s => if s ≠ "" then Number s else .fin 0
    | none => .fin 0
  let skip := if isNaN skip then .fin 0 else skip
  mathMax (.fin 0) (mathFloor skip)

/-- The `limit` of `/poems`, lines 237, 240 and 242. -/
def poemsLimit (queryLimit : Option String) : JSNum :=
  let limit := match queryLimit with
    | some s => if s ≠ "" then Number s else .fin 50
    | none => .fin 50
  let limit := if isNaN limit then .fin 50 else limit
  mathMax (.fin 0) (mathFloor limit)

/-- The `skip` of `/poems`, lines 238, 241 and 243. -/
def poemsSkip (querySkip : Option String) : JSNum :=
  let skip := match querySkip with
    | some s => if s ≠ "" then Number s else .fin 0
    | none => .fin 0
  let skip := if isNaN skip then .fin 0 else skip
  mathMax (.fin 0) (mathFloor skip)


/-! ## Sample data -/

/-- The record of a `WROTE` relationship between two driver nodes. -/
def wrote (src tgt : RawNode) : Record :=
  { n := some src
    r := { type := "WROTE" }
    m := some tgt
    sourceLabels := src.labels.getD []
    targetLabels := tgt.labels.getD []
    sourceProps := src.properties.getD []
    targetProps := tgt.properties.getD [] }

/-- A poet with identity 1. -/
def poetA : RawNode :=
  { identity := some 1, labels := some ["Poet"], properties := some [("name", .str "PoetA")] }

/-- A poet with identity 4. -/
def poetB : RawNode :=
  { identity := some 4, labels := some ["Poet"], properties := some [("name", .str "PoetB")] }

/-- A poem with identity 2. -/
def poemX : RawNode :=
  { identity := some 2, labels := some ["Poem"], properties := some [("title", .str "PoemX")] }

/-- A poem with identity 3. -/
def poemY : RawNode :=
  { identity := some 3, labels := some ["Poem"], properties := some [("title", .str "PoemY")] }

/-- The three rows (PoetA)-[WROTE]->(PoemX), (PoetA)-[WROTE]->(PoemY),
(PoetB)-[WROTE]->(PoemX). -/
def scenarioRows : List Record :=
  [wrote poetA poemX, wrote poetA poemY, wrote poetB poemX]

/-- An entity without identity and without labels, named `Anon`, dated 701. -/
def anonEarly : RawNode :=
  { identity := none, labels := some [],
    properties := some [("name", .str "Anon"), ("born", .str "701")] }

/-- Another entity without identity, also named `Anon`, dated 772. -/
def anonLate : RawNode :=
  { identity := none, labels := some ["Poet"],
    properties := some [("name", .str "Anon"), ("born", .str "772")] }

/-- Two rows whose sources are the two entities named `Anon`. -/
def anonRows : List Record :=
  [wrote anonEarly poemX, wrote anonLate poemY]

/-- A poem whose `name` is the empty string and whose `title` is not. -/
def emptyNamePoem : RawNode :=
  { identity := some 7, labels := some ["Poem"],
    properties := some [("name", .str ""), ("title", .str "Jing Ye Si")] }

/-- A node whose only property is a `genre` holding the empty string. -/
def emptyGenreNode : RawNode :=
  { identity := some 5, labels := some ["Genre"], properties := some [("genre", .str "")] }

/-- A node whose only property is a `genre`. -/
def genreNode : RawNode :=
  { identity := some 6, labels := some ["Genre"], properties := some [("genre", .str "ci")] }

/-- A node without properties, labels or identity. -/
def bareNode : RawNode :=
  { identity := none, labels := none, properties := none }

/-- The label chain in words: the first truthy value among `name`, `title`
and `genre`, in that order, else the stringified identity. -/
def labelChain (props : Props) (neoId : Option Int) : JSVal :=
  if (props.get "name").truthy then props.get "name"
  else if (props.get "title").truthy then props.get "title"
  else if (props.get "genre").truthy then props.get "genre"
  else .str (stringOfNeoId neoId)

/-- The type in words: the first label when there is one, else `"unknown"`. -/
def firstLabelOrUnknown (labels : List String) : JSVal :=
  match labels with
  | l :: _ => .str l
  | [] => .str "unknown"


/-! ## `parseInt` and the parameters of `/knowledgeGraph/node/:nodeId` -/

/-- The global `parseInt(s)` without radix: leading white space is skipped, a
sign is read, a `0x` / `0X` mark switches to base 16, and the longest run of
digits that follows is the value; `none` is `NaN` (no digit). Values are exact
integers (the rounding of long digit runs is not represented). -/
def parseInt (s : String) : Option Int :=
  let cs := s.toList.dropWhile isStrWhiteSpace
  let negative := match cs with
    | '-' :: _ => true
    | _ => false
  let body := match cs with
    | '+' :: t => t
    | '-' :: t => t
    | _ => cs
  let hex := match body with
    | '0' :: 'x' :: _ => true
    | '0' :: 'X' :: _ => true
    | _ => false
  let radix := if hex then 16 else 10
  let digits := (if hex then body.drop 2 else body).takeWhile (isDigitOf radix)
  if digits = [] then none
  else if negative then some (-(digitsValue radix digits : Int))
  else some (digitsValue radix digits : Int)

/-- `parseInt(req.query.key)`: a missing parameter is `undefined`, which
`parseInt` reads as the string "undefined". -/
def parseIntQuery (q : Option String) : Option Int :=
  match q with
  | some s => parseInt s
  | none => parseInt "undefined"

/-- The expression `x || d` for `x` the result of `parseInt`: `NaN` and `0` are
falsy. -/
def orDefault (x : Option Int) (d : Int) : Int :=
  match x with
  | some n => if n ≠ 0 then n else d
  | none => d

/-- `const depth = parseInt(req.query.depth) || 1`. -/
def centeredDepth (queryDepth : Option String) : Int :=
  orDefault (parseIntQuery queryDepth) 1

/-- `const limit = parseInt(req.query.limit) || 200`. -/
def centeredLimit (queryLimit : Option String) : Int :=
  orDefault (parseIntQuery queryLimit) 200

/-- The end of a driver relationship (`raw.start`, `raw.end`): a driver
`Integer`, which has `toInt`, or any other value, which has not. -/
inductive RelEnd where
  | integer (i : Int)
  | other (v : JSVal)
deriving DecidableEq

/-- A record (column `rl`) of the relationship query. -/
structure RawPathRel where
  type : String
  start : RelEnd
  «end» : RelEnd
deriving DecidableEq

/-- `e && e.toInt ? e.toInt() : (e || null)`. -/
def relEndId (e : RelEnd) : JSVal :=
  match e with
  | .integer i => JSVal.ofInt i
  | .other v => v.or .null

/-- The body of `relsResult.records.forEach(rec => ...)`. -/
def processRelRecord (links : List GraphLink) (raw : RawPathRel) : List GraphLink :=
  if relEndId raw.start ≠ .null ∧ relEndId raw.«end» ≠ .null then
    links ++ [{ source := relEndId raw.start, target := relEndId raw.«end», type := raw.type }]
  else links

/-- The `links` array built from the records of the relationship query. -/
def centeredLinks (recs : List RawPathRel) : List GraphLink :=
  recs.foldl processRelRecord []

/-- The text of the existence query. -/
def existsQuery : String :=
  "MATCH (n) WHERE id(n) = $nodeId RETURN n LIMIT 1"

/-- The text of `nodesQuery`, the depth inlined (indentation dropped). -/
def nodesQuery (depth : Int) : String :=
  "MATCH (start) WHERE id(start) = $nodeId\n" ++
  "MATCH p=(start)-[*1.." ++ toString depth ++ "]-(m)\n" ++
  "UNWIND nodes(p) as nd\n" ++
  "RETURN DISTINCT nd\n" ++
  "LIMIT $limit"

/-- The text of `relsQuery`, the depth inlined (indentation dropped). -/
def relsQuery (depth : Int) : String :=
  "MATCH (start) WHERE id(start) = $nodeId\n" ++
  "MATCH p=(start)-[*1.." ++ toString depth ++ "]-(m)\n" ++
  "UNWIND relationships(p) as rl\n" ++
  "RETURN DISTINCT rl\n" ++
  "LIMIT $limit"

/-- A call `session.run(text, params)` of the node-centered handler: the query
text and the values of `$nodeId` and, when given, `$limit`. -/
structure RunCall where
  text : String
  nodeId : Int
  limit : Option Int
deriving DecidableEq

/-- What the database answers to the calls of the node-centered handler:
`none` when `session.run` throws, else the records. -/
structure CenteredDb where
  existing : RunCall → Option (List RawNode)
  pathNodes : RunCall → Option (List RawNode)
  pathRels : RunCall → Option (List RawPathRel)

/-- The response of the node-centered handler: the JSON body of a success
(`nodes`, `links`, `description`, `metadata.nodeCount`, `metadata.linkCount`)
or a status with an `error` message. -/
inductive CenteredResponse where
  | ok (nodes : List GraphNode) (links : List GraphLink) (description : String)
      (nodeCount linkCount : Nat)
  | error (status : Nat) (message : String)
deriving DecidableEq

/-- The response of the node-centered handler together with the calls of
`session.run` it made, in order. -/
structure CenteredOutcome where
  response : CenteredResponse
  calls : List RunCall
deriving DecidableEq

/-- The handler of `GET /knowledgeGraph/node/:nodeId`. A query that throws
ends in the `catch` with status 500. -/
def nodeCenteredHandler (db : CenteredDb) (nodeIdParam : String)
    (queryDepth queryLimit : Option String) : CenteredOutcome :=
  let depth := centeredDepth queryDepth
  let limit := centeredLimit queryLimit
  match parseInt nodeIdParam with
  | none => { response := .error 400 "Invalid nodeId", calls := [] }
  | some nodeId =>
    let existsCall : RunCall := { text := existsQuery, nodeId := nodeId, limit := none }
    match db.existing existsCall with
    | none => { response := .error 500 "Internal server error", calls := [existsCall] }
    | some found =>
      if found.length = 0 then
        { response := .error 404 "Node not found", calls := [existsCall] }
      else
        let nodesCall : RunCall :=
          { text := nodesQuery depth, nodeId := nodeId, limit := some limit }
        let relsCall : RunCall :=
          { text := relsQuery depth, nodeId := nodeId, limit := some limit }
        match db.pathNodes nodesCall with
        | none =>
          { response := .error 500 "Internal server error", calls := [existsCall, nodesCall] }
        | some nodeRecords =>
          match db.pathRels relsCall with
          | none =>
            { response := .error 500 "Internal server error",
              calls := [existsCall, nodesCall, relsCall] }
          | some relRecords =>
            let nodes := centeredNodes nodeRecords
            let links := centeredLinks relRecords
            { response := .ok nodes links
                ("与节点 " ++ toString nodeId ++ "（深度 " ++ toString depth ++ "）相关的子图")
                nodes.length links.length
              calls := [existsCall, nodesCall, relsCall] }

/-! ## `GET /knowledgeGraph`: the query text -/

/-- The query chosen when a search term is given (indentation dropped). -/
def searchQuery : String :=
  "MATCH (n)-[r]->(m)\n" ++
  "WHERE n.name CONTAINS $searchTerm OR n.title CONTAINS $searchTerm " ++
  "OR m.name CONTAINS $searchTerm OR m.title CONTAINS $searchTerm\n" ++
  "RETURN n, r, m, labels(n) as sourceLabels, labels(m) as targetLabels,\n" ++
  "properties(n) as sourceProps, properties(m) as targetProps\n"

/-- The query chosen without a search term: a random sample of the
relationships of poets (indentation dropped). -/
def sampleQuery : String :=
  "MATCH (p:Poet)-[r]->(m)\n" ++
  "WITH p, r, m ORDER BY rand() LIMIT $limit\n" ++
  "RETURN p as n, r as r, m as m, labels(p) as sourceLabels, labels(m) as targetLabels,\n" ++
  "properties(p) as sourceProps, properties(m) as targetProps\n"

/-- The test `searchTerm && searchTerm.trim() !== ''`. -/
def hasSearchTerm (searchTerm : Option String) : Bool :=
  match searchTerm with
  | some s => decide (s ≠ "") && decide (trimWhiteSpace s.toList ≠ [])
  | none => false

/-- The `query` of `/knowledgeGraph`, lines 47 to 63. -/
def knowledgeGraphQuery (searchTerm : Option String) : String :=
  if hasSearchTerm searchTerm then searchQuery else sampleQuery

/-- The text sent to the database, line 77. -/
def pagedQuery (searchTerm : Option String) : String :=
  knowledgeGraphQuery searchTerm ++ " SKIP $skip LIMIT $limit"

/-- The number of places of `text` where `pat` starts. -/
def countOccurrences (pat : List Char) : List Char → Nat
  | [] => 0
  | c :: cs => (if pat.isPrefixOf (c :: cs) then 1 else 0) + countOccurrences pat cs

/-- The rows the clauses of the paged sampling query keep of the matched
relationships, taken in the order `rand()` gave them: `WITH ... LIMIT $limit`
keeps the first `limit`, then `SKIP $skip` drops and `LIMIT $limit` caps. -/
def sampleQueryRows {α : Type} (shuffled : List α) (limit skip : Nat) : List α :=
  ((shuffled.take limit).drop skip).take limit

/-- The rows a query with the bound applied once keeps: `SKIP $skip LIMIT $limit`. -/
def singleBoundRows {α : Type} (shuffled : List α) (limit skip : Nat) : List α :=
  (shuffled.drop skip).take limit

/-- A number that is a non-negative integer. -/
def JSNum.isNonnegInteger (x : JSNum) : Prop :=
  ∃ n : Nat, x = .fin (n : ℚ)

/-! ## `GET /poems`: the primary path -/

/-- An element of `poems` in the primary path (the object literal `item`). -/
structure PoemItem where
  id : Option Int
  author : JSVal
  title : JSVal
  text : JSVal
  dynasty : JSVal
  time : JSVal
  image : JSVal
  properties : Props
deriving DecidableEq

/-- `poemNode ? poemNode.properties || {} : {}`. -/
def poemProps (poemNode : Option RawNode) : Props :=
  match poemNode with
  | some node => node.properties.getD []
  | none => []

/-- `poemNode && poemNode.identity ? poemNode.identity.toInt() : null`. -/
def poemIdVal (poemNode : Option RawNode) : Option Int :=
  match poemNode with
  | some node => node.identity
  | none => none

/-- The object literal `item` built for a record (column `poem`). -/
def poemItem (poemNode : Option RawNode) : PoemItem :=
  { id := poemIdVal poemNode
    author := (((poemProps poemNode).get "author").or ((poemProps poemNode).get "name")).or
      (.str "")
    title := (((poemProps poemNode).get "title").or ((poemProps poemNode).get "name")).or
      (.str "")
    text := ((((poemProps poemNode).get "text").or ((poemProps poemNode).get "content")).or
      ((poemProps poemNode).get "body")).or (.str "")
    dynasty := ((poemProps poemNode).get "dynasty").or (.str "")
    time := ((poemProps poemNode).get "time").or (.str "")
    image := ((poemProps poemNode).get "image").or .null
    properties := poemProps poemNode }

/-- The body of `result.records.forEach(rec => ...)` of `/poems` on the map
`seen`, kept as its entries in insertion order: `seen.has(idVal)` compares
keys that are `null` or integers. -/
def seenStep (seen : List (Option Int × PoemItem)) (poemNode : Option RawNode) :
    List (Option Int × PoemItem) :=
  if seen.any (fun entry => decide (entry.1 = poemIdVal poemNode)) then seen
  else seen ++ [(poemIdVal poemNode, poemItem poemNode)]

/-- `Array.from(seen.values())` after the loop over the records. -/
def primaryPoems (records : List (Option RawNode)) : List PoemItem :=
  (records.foldl seenStep []).map (fun entry => entry.2)

/-- The first truthy value of a list of candidates, else the default. -/
def firstNonEmpty (candidates : List JSVal) (dflt : JSVal) : JSVal :=
  match candidates.find? (fun v => v.truthy) with
  | some v => v
  | none => dflt

/-- A list with every later repetition of an element removed. -/
def keepFirsts {α : Type} [DecidableEq α] : List α → List α
  | [] => []
  | x :: xs => x :: (keepFirsts xs).filter (fun y => decide (y ≠ x))

/-! ## `GET /poems`: the fallback path -/

/-- An element of a parsed JSON array: `null`, whose members cannot be read
(reading throws), an object with its members, or a number, string, boolean or
array, whose members read by the mapping are all `undefined`. -/
inductive JsonItem where
  | null
  | object (members : Props)
  | other (v : JSVal)
deriving DecidableEq

/-- The read `item.key` on an element that is not `null`. -/
def JsonItem.get (item : JsonItem) (key : String) : JSVal :=
  match item with
  | .object members => members.get key
  | _ => .undefined

/-- An element of `fallbackPoems` (the object literal of `fallbackPoems.push`). -/
structure FallbackPoem where
  id : JSVal
  author : JSVal
  title : JSVal
  text : JSVal
  poet : JSVal
  dynasty : JSVal
  image : JSVal
  properties : JsonItem
deriving DecidableEq

/-- The object literal pushed for `item`; `none` when reading `item.id`
throws, which is when the item is `null`. -/
def fallbackItem (item : JsonItem) : Option FallbackPoem :=
  match item with
  | .null => none
  | _ =>
    some
      { id := ((item.get "id").or (item.get "_id")).or .null
        author := (((item.get "author").or (item.get "poet")).or (item.get "author")).or
          (.str "")
        title := ((item.get "title").or (item.get "name")).or (.str "")
        text := (((item.get "content").or (item.get "text")).or (item.get "body")).or (.str "")
        poet := ((item.get "author").or (item.get "poet")).or (.str "")
        dynasty := (item.get "dynasty").or (.str "")
        image := (item.get "image").or .null
        properties := item }

/-- What reading and parsing a file gives: an exception (`readFileSync` or
`JSON.parse` throws), a value that is not an array, or an array. -/
inductive FileParse where
  | failed
  | notArray
  | array (items : List JsonItem)
deriving DecidableEq

/-- A file of the fallback directory. -/
structure DirFile where
  name : String
  parsed : FileParse
deriving DecidableEq

/-- The directory `output_poems`: absent (`existsSync` is false), unreadable
(`readdirSync` throws) or its files in the order `readdirSync` lists them. -/
inductive FallbackDir where
  | absent
  | unreadable
  | present (entries : List DirFile)
deriving DecidableEq

/-- The filter `f.toLowerCase().endsWith('.json')`. -/
def isJsonName (f : String) : Bool :=
  ".json".toList.isSuffixOf (f.toList.map Char.toLower)

/-- The loop `for (const item of arr)`: items are pushed until one throws,
which leaves the loop (and the file) with what was pushed so far. -/
def pushItems (acc : List FallbackPoem) : List JsonItem → List FallbackPoem
  | [] => acc
  | item :: rest =>
    match fallbackItem item with
    | some poem => pushItems (acc ++ [poem]) rest
    | none => acc

/-- The body of `for (const f of files)`: a file that fails or is not an
array adds nothing. -/
def scanFile (acc : List FallbackPoem) (f : DirFile) : List FallbackPoem :=
  match f.parsed with
  | .array items => pushItems acc items
  | _ => acc

/-- The array `fallbackPoems` after the scan; `none` when the scan itself
throws (outer `catch`). -/
def fallbackPoems (dir : FallbackDir) : Option (List FallbackPoem) :=
  match dir with
  | .absent => some []
  | .unreadable => none
  | .present entries => some ((entries.filter (fun f => isJsonName f.name)).foldl scanFile [])

/-- `ToIntegerOrInfinity` followed by the clamping of `Array.prototype.slice`
for its `end` argument on an array of length `len`. -/
def sliceEnd (len : Nat) (x : JSNum) : Nat :=
  match x with
  | .nan => 0
  | .posInf => len
  | .negInf => 0
  | .fin q =>
    if 0 ≤ q then min (Rat.floor q).toNat len
    else (len - (Rat.floor (-q)).toNat)

/-- `arr.slice(0, end)`. -/
def sliceTo {α : Type} (arr : List α) (x : JSNum) : List α :=
  arr.take (sliceEnd arr.length x)

/-- The response of `/poems`: the primary body `{poems, metadata: {count,
limit, skip}}`, the fallback body `{poems, metadata: {fallback: true, count}}`
or a status with an `error` message. -/
inductive PoemsResponse where
  | primary (poems : List PoemItem) (count : Nat) (limit skip : JSNum)
  | fallback (poems : List FallbackPoem) (count : Nat)
  | error (status : Nat) (message : String)
deriving DecidableEq

/-- The handler of `GET /poems`: `primary` is what `session.run` gives for the
request, `none` when it throws. -/
def poemsHandler (primary : Option (List (Option RawNode))) (dir : FallbackDir)
    (queryLimit querySkip : Option String) : PoemsResponse :=
  let limit := poemsLimit queryLimit
  let skip := poemsSkip querySkip
  match primary with
  | some records => .primary (primaryPoems records) (primaryPoems records).length limit skip
  | none =>
    match fallbackPoems dir with
    | some found =>
      if found.length > 0 then .fallback (sliceTo found limit) found.length
      else .error 500 "Failed to fetch poems"
    | none => .error 500 "Failed to fetch poems"

/-! ## Sample requests -/

/-- A database in which node 12 (PoetA) exists, with one neighbour and one
relationship; every other node is missing. -/
def sampleDb : CenteredDb :=
  { existing := fun call => if call.nodeId = 12 then some [poetA] else some []
    pathNodes := fun _ => some [poetA, poemX]
    pathRels := fun _ => some [{ type := "WROTE", start := .integer 1, «end» := .integer 2 }] }

/-- A poem row with identity 1 that has both a `text` and a `content`. -/
def poemRow : Option RawNode :=
  some { identity := some 1, labels := some ["Poem"],
         properties := some [("title", .str "T1"), ("text", .str "A"), ("content", .str "B")] }

/-- A poem row without identity, titled "X". -/
def anonPoemX : Option RawNode :=
  some { identity := none, labels := some ["Poem"], properties := some [("title", .str "X")] }

/-- A poem row without identity, titled "Y". -/
def anonPoemY : Option RawNode :=
  some { identity := none, labels := some ["Poem"], properties := some [("title", .str "Y")] }

/-- A poem node without identity and labels that carries the given properties. -/
def poemNodeOf (props : Props) : Option RawNode :=
  some { identity := none, labels := none, properties := some props }

/-- The members of a JSON record: an `id`, a `poet`, a `title`, a `text` and a
`content`. -/
def jsonPoemMembers : Props :=
  [("id", .num (.fin 7)), ("poet", .str "Li Bai"), ("title", .str "T7"),
    ("text", .str "A"), ("content", .str "B")]

/-- The JSON record with these members. -/
def jsonPoem : JsonItem :=
  .object jsonPoemMembers

/-- A JSON record with a title only. -/
def jsonTitleOnly : JsonItem :=
  .object [("title", .str "T8")]

/-- A fallback directory: an array file of two records, a file that is not
JSON by name, and a file that fails to parse. -/
def sampleDir : FallbackDir :=
  .present
    [{ name := "tang.JSON", parsed := .array [jsonPoem, jsonTitleOnly] },
     { name := "notes.txt", parsed := .array [jsonTitleOnly] },
     { name := "broken.json", parsed := .failed }]


/-! ## `GET /poems/raw`, and the records of a file and of a relationship row -/

/-- The expression `Math.max(1, Math.min(200, parseInt(req.query.limit) || 20))`
of line 386, the first statement of the handler of `/poems/raw`. -/
def poemsRawLimit (queryLimit : Option String) : Int :=
  max 1 (min 200 (orDefault (parseIntQuery queryLimit) 20))

/-- The functions `app.js` registers as handlers. -/
inductive Handler where
  | knowledgeGraph
  | nodeCentered
  | poems
  | health
  | stats
  | notFound
  | errorHandler
  | poemsRaw
deriving DecidableEq

/-- A segment of a route path: a fixed name, or a parameter such as `:nodeId`. -/
inductive PathPart where
  | name (s : String)
  | param
deriving DecidableEq

/-- A layer of the application, as a `GET` request meets it: a middleware that
hands the request on (`cors`, `bodyParser.json()`), a route `app.get(path, fn)`,
a middleware `app.use(fn)` of three parameters that answers every request, or a
middleware of four parameters, which only runs after an error. -/
inductive Layer where
  | passes
  | get (path : List PathPart) (handler : Handler)
  | use (handler : Handler)
  | useOnError (handler : Handler)
deriving DecidableEq

/-- The layers of `app.js` in the order of their registration (lines 16, 23,
41, 159, 235, 342, 347, 369, 374 and 385): the route `/poems/raw` is added
after the middleware that answers 404. -/
def appLayers : List Layer :=
  [.passes,
   .passes,
   .get [.name "knowledgeGraph"] .knowledgeGraph,
   .get [.name "knowledgeGraph", .name "node", .param] .nodeCentered,
   .get [.name "poems"] .poems,
   .get [.name "health"] .health,
   .get [.name "stats"] .stats,
   .use .notFound,
   .useOnError .errorHandler,
   .get [.name "poems", .name "raw"] .poemsRaw]

/-- Whether a route path matches the segments of a request path (a parameter
matches any non-empty segment). -/
def pathMatches : List PathPart → List String → Bool
  | [], [] => true
  | .name s :: ps, seg :: segs => decide (s = seg) && pathMatches ps segs
  | .param :: ps, seg :: segs => decide (seg ≠ "") && pathMatches ps segs
  | _, _ => false

/-- The handler with which a layer answers a `GET` request for the path, if
it answers it; every handler of `app.js` ends the response itself. -/
def Layer.answers (layer : Layer) (path : List String) : Option Handler :=
  match layer with
  | .passes => none
  | .get route handler => if pathMatches route path then some handler else none
  | .use handler => some handler
  | .useOnError _ => none

/-- The handler that answers a `GET` request for the path: the first layer, in
the order of registration, that answers it. The query string plays no part. -/
def dispatch (layers : List Layer) (path : List String) : Option Handler :=
  layers.findSome? (fun layer => layer.answers path)

/-- The status and the body the handler of lines 369-371 sends:
`res.status(404).send("Sorry can't find that!")`. -/
def notFoundResponse : Nat × String :=
  (404, "Sorry can't find that!")

/-- The records one file of the directory adds to `fallbackPoems`. -/
def fileRecords (f : DirFile) : List FallbackPoem :=
  scanFile [] f

/-- The object literal `{ source: startId, target: endId, type: relType }`. -/
def rowLink (raw : RawPathRel) : GraphLink :=
  { source := relEndId raw.start, target := relEndId raw.«end», type := raw.type }

/-- The link a record of the relationship query yields, if it yields one. -/
def relLink (raw : RawPathRel) : Option GraphLink :=
  (processRelRecord [] raw).head?

/-- A database whose node query answers one node (PoetA, identity 1) and whose
relationship query answers the relationship from 1 to 2, as with `limit=1`. -/
def truncatingDb : CenteredDb :=
  { existing := fun _ => some [poetA]
    pathNodes := fun _ => some [poetA]
    pathRels := fun _ => some [{ type := "WROTE", start := .integer 1, «end» := .integer 2 }] }

/-- Relationship rows: from 0 to 2, one without start, from 0 to 2 again. -/
def sampleRels : List RawPathRel :=
  [{ type := "WROTE", start := .integer 0, «end» := .integer 2 },
   { type := "WROTE", start := .other .undefined, «end» := .integer 2 },
   { type := "WROTE", start := .integer 0, «end» := .integer 2 }]

/-- A directory whose only JSON file fails to parse. -/
def brokenDir : FallbackDir :=
  .present
    [{ name := "broken.json", parsed := .failed },
     { name := "notes.txt", parsed := .array [jsonTitleOnly] }]

/-- A directory whose first file is an array with a `null` between two
records, and whose second file is an array of one record. -/
def nullItemDir : List DirFile :=
  [{ name := "a.json", parsed := .array [jsonTitleOnly, .null, jsonPoem] },
   { name := "b.json", parsed := .array [jsonTitleOnly] }]

/-- A directory in which malformed files surround two array files. -/
def mixedDir : List DirFile :=
  [{ name := "a.json", parsed := .failed },
   { name := "b.json", parsed := .array [jsonPoem] },
   { name := "c.json", parsed := .notArray },
   { name := "d.json", parsed := .array [jsonTitleOnly, jsonPoem] }]


/-! ## The graph component (`KnowledgeGraph.js`): `degreeMap` and `limitedGraphData`

Node ids are the integers the API answers as the identity of a node; the
object `map` is keyed by their string forms, one per integer. -/

/-- A node of `graphData.nodes`. -/
structure ViewNode where
  id : Int
  label : String
  type : String
deriving DecidableEq

/-- The `source` or `target` of a link: the id the API answered, or the node
object the force layout put in its place. -/
inductive LinkEnd where
  | id (i : Int)
  | node (n : ViewNode)
deriving DecidableEq

/-- A link of `graphData.links`. -/
structure ViewLink where
  source : LinkEnd
  target : LinkEnd
  type : String
deriving DecidableEq

/-- The prop `graphData` when it is not null. -/
structure ViewGraph where
  nodes : List ViewNode
  links : List ViewLink
deriving DecidableEq

/-- `typeof e === 'object' ? e.id : e`. -/
def endId (e : LinkEnd) : Int :=
  match e with
  | .id i => i
  | .node n => n.id

/-- The statement `map[key] = (map[key] || 0) + 1`. -/
def bump (map : Int → Option Nat) (key : Int) : Int → Option Nat :=
  fun k => if k = key then some ((map key).getD 0 + 1) else map k

/-- The memo `degreeMap`: an entry per id that ends a link. -/
def degreeMap (graphData : Option ViewGraph) : Int → Option Nat :=
  match graphData with
  | none => fun _ => none
  | some g =>
    g.links.foldl (fun map link => bump (bump map (endId link.source)) (endId link.target))
      (fun _ => none)

/-- The expression `degreeMap[id] || 0`. -/
def degreeOf (graphData : Option ViewGraph) (id : Int) : Nat :=
  (degreeMap graphData id).getD 0

/-- `[...graphData.nodes].sort((a, b) => (degreeMap[b.id]||0) - (degreeMap[a.id]||0))`:
`Array.prototype.sort` is a stable sort, here by insertion. -/
def sortedNodes (g : ViewGraph) : List ViewNode :=
  g.nodes.insertionSort (fun a b => degreeOf (some g) b.id ≤ degreeOf (some g) a.id)

/-- The memo `limitedGraphData` (`nodeLimit` is the value of the range input,
a natural number). -/
def limitedGraphData (graphData : Option ViewGraph) (showAllNodes : Bool) (nodeLimit : Nat) :
    ViewGraph :=
  match graphData with
  | none => { nodes := [], links := [] }
  | some g =>
    if showAllNodes then g
    else
      let limitedNodes := (sortedNodes g).take nodeLimit
      let nodeIds := limitedNodes.map (fun n => n.id)
      let limitedLinks := g.links.filter (fun link =>
        decide (endId link.source ∈ nodeIds) && decide (endId link.target ∈ nodeIds))
      { nodes := limitedNodes, links := limitedLinks }

/-! ## `App.handleSearch` -/

/-- What `handleSearch` starts: `fetchNodeCenteredGraph(nodeId, depth)` or
`fetchGraphData(term)`. -/
inductive SearchAction where
  | nodeCentered (nodeId : JSNum) (depth : Int)
  | textSearch (term : String)
deriving DecidableEq

/-- The test `/^\d+$/.test(s)`: at least one character, all of them `0`..`9`. -/
def isDigitString (s : List Char) : Bool :=
  decide (s ≠ []) && s.all (isDigitOf 10)

/-- `handleSearch(searchTerm, depth = 1)` for a string `searchTerm`. -/
def handleSearch (searchTerm : String) (depth : Option Int) : SearchAction :=
  if isDigitString (trimWhiteSpace searchTerm.toList) then
    .nodeCentered (Number searchTerm) (depth.getD 1)
  else .textSearch searchTerm

/-! ## `Poems.highlightText`

Strings are lists of characters. The two case mappings the function relies on
belong to the engine and are parameters here: `canonicalize`, the mapping of
single characters under which the flag `i` compares them, and `toLowerCase`,
the method `String.prototype.toLowerCase`. -/

/-- The characters of the class `[.*+?^${}()|[\]\\]`, by code point:
`.` `*` `+` `?` `^` `$` `{` `}` `(` `)` `|` `[` `]` and the backslash. These are
the syntax characters of a regular expression. -/
def isSyntaxCharacter (c : Char) : Bool :=
  decide (c.toNat ∈ [46, 42, 43, 63, 94, 36, 123, 125, 40, 41, 124, 91, 93, 92])

/-- The backslash. -/
def backslash : Char := Char.ofNat 92

/-- `string.replace(/[.*+?^${}()|[\]\\]/g, '\\$&')`: a backslash is put before
every syntax character. -/
def escapeRegExp (s : List Char) : List Char :=
  s.flatMap (fun c => if isSyntaxCharacter c then [backslash, c] else [c])

/-- The text a run of pattern characters matches when it is made of ordinary
characters and of syntax characters that each follow a backslash; `none` for a
run that holds a bare syntax character or another escape. -/
def readAtoms : Bool → List Char → Option (List Char)
  | escaped, [] => if escaped then none else some []
  | true, c :: rest =>
    if isSyntaxCharacter c then (readAtoms false rest).map (fun l => c :: l) else none
  | false, c :: rest =>
    if c = backslash then readAtoms true rest
    else if isSyntaxCharacter c then none
    else (readAtoms false rest).map (fun l => c :: l)

/-- The literal text a pattern of the shape `(` atoms `)` captures, `none` for
a pattern of another shape. -/
def readGroup (pattern : List Char) : Option (List Char) :=
  match pattern with
  | [] => none
  | c :: rest =>
    if c = Char.ofNat 40 ∧ rest.getLast? = some (Char.ofNat 41) then readAtoms false rest.dropLast
    else none

/-- The pattern of `new RegExp(..., 'gi')` in `highlightText`. -/
def highlightPattern (q : List Char) : List Char :=
  Char.ofNat 40 :: (escapeRegExp q ++ [Char.ofNat 41])

/-- Whether `needle` matches at the start of `text` under the flag `i`:
character by character, each pair compared after `canonicalize`. -/
def matchesAt (canonicalize : Char → Char) : List Char → List Char → Bool
  | [], _ => true
  | _ :: _, [] => false
  | n :: ns, t :: ts =>
    decide (canonicalize n = canonicalize t) && matchesAt canonicalize ns ts

/-- `text.split(re)` for an expression that captures the literal `needle`:
the pieces between the matches, each followed by the matched text. `skip` is
the number of characters of the current match still to pass and `segment` the
piece read so far, reversed. -/
def splitLoop (canonicalize : Char → Char) (needle : List Char) :
    Nat → List Char → List Char → List (List Char)
  | _, segment, [] => [segment.reverse]
  | skip + 1, segment, _ :: cs => splitLoop canonicalize needle skip segment cs
  | 0, segment, c :: cs =>
    if matchesAt canonicalize needle (c :: cs) then
      segment.reverse :: (c :: cs).take needle.length ::
        splitLoop canonicalize needle (needle.length - 1) [] cs
    else splitLoop canonicalize needle 0 (c :: segment) cs

/-- What `highlightText` returns: the text itself, or the parts, each tagged
`true` when rendered as `<mark>` and `false` when rendered as `<span>`. -/
inductive Highlighted where
  | plain (text : List Char)
  | parts (ps : List (Bool × List Char))
deriving DecidableEq

/-- `highlightText(text, q)`; `none` if the pattern were not a group of
literal characters. -/
def highlightText (canonicalize : Char → Char) (toLowerCase : List Char → List Char)
    (text q : List Char) : Option Highlighted :=
  if q = [] ∨ text = [] then some (.plain text)
  else
    match readGroup (highlightPattern q) with
    | some needle =>
      some (.parts ((splitLoop canonicalize needle 0 [] text).map
        (fun part => (decide (toLowerCase part = toLowerCase q), part))))
    | none => none

/-- The parts of a split at the odd positions: with one capture in the
expression these are the captured matches, the others the pieces between. -/
def matchedParts : List (List Char) → List (List Char)
  | _ :: m :: rest => m :: matchedParts rest
  | _ => []

/-- The mapping of the flag `i` on a character of ASCII (its upper-case
letter); the engine's mapping agrees with it on ASCII. -/
def asciiCanonicalize (c : Char) : Char :=
  c.toUpper

/-- The method `toLowerCase` on a string of ASCII characters; the engine's
method agrees with it on ASCII. -/
def asciiToLowerCase (s : List Char) : List Char :=
  s.map Char.toLower

/-! ## Sample views -/

/-- A graph of four nodes in which node 3 ends three links, node 1 two, node 2
one and node 4 none. -/
def sampleView : ViewGraph :=
  { nodes :=
      [{ id := 1, label := "PoetA", type := "Poet" },
       { id := 2, label := "PoemX", type := "Poem" },
       { id := 3, label := "PoemY", type := "Poem" },
       { id := 4, label := "PoetB", type := "Poet" }]
    links :=
      [{ source := .id 1, target := .id 3, type := "WROTE" },
       { source := .id 2, target := .id 3, type := "CITES" },
       { source := .node { id := 3, label := "PoemY", type := "Poem" }, target := .id 1,
         type := "ABOUT" }] }


/-! ## Auxiliary facts about values -/

theorem or_ne_nan (a b : JSVal) (hb : b ≠ .num .nan) : a.or b ≠ .num .nan := by
  unfold JSVal.or
  split
  · intro h
    simp_all [JSVal.truthy]
  · exact hb

theorem strictEq_eq_decide (a b : JSVal) (hb : b ≠ .num .nan) :
    strictEq a b = decide (a = b) := by
  unfold strictEq
  by_cases ha : a = .num .nan
  · subst ha
    simp [Ne.symm hb]
  · simp [ha, hb]

theorem ofInt_ne_nan (i : Int) : JSVal.ofInt i ≠ .num .nan := by
  simp [JSVal.ofInt]

theorem node1Id_ne_nan (record : Record) : node1Id record ≠ .num .nan := by
  unfold node1Id
  split
  · exact ofInt_ne_nan _
  · exact or_ne_nan _ _ (by simp)

theorem node2Id_ne_nan (record : Record) : node2Id record ≠ .num .nan := by
  unfold node2Id
  split
  · exact ofInt_ne_nan _
  · exact or_ne_nan _ _ (by simp)

theorem idVal_ne_nan (raw : RawNode) : idVal raw ≠ .num .nan := by
  unfold idVal
  split
  · exact ofInt_ne_nan _
  · exact or_ne_nan _ _ (by simp)

/-! ## The push-if-absent loop -/

theorem pushIfAbsent_eq (nodes : List GraphNode) (c : GraphNode) (hc : c.id ≠ .num .nan) :
    pushIfAbsent nodes c = if c.id ∈ nodes.map (fun n => n.id) then nodes else nodes ++ [c] := by
  unfold pushIfAbsent
  have h : (nodes.find? (fun node => strictEq node.id c.id)).isNone = true ↔
      ¬ c.id ∈ nodes.map (fun n => n.id) := by
    rw [Option.isNone_iff_eq_none, List.find?_eq_none]
    simp only [strictEq_eq_decide _ _ hc, decide_eq_true_eq, List.mem_map, not_exists, not_and]
  by_cases hm : c.id ∈ nodes.map (fun n => n.id)
  · have : ¬ (nodes.find? (fun node => strictEq node.id c.id)).isNone = true := fun e => h.1 e hm
    simp [this, hm]
  · have : (nodes.find? (fun node => strictEq node.id c.id)).isNone = true := h.2 hm
    simp [this, hm]

theorem removeLaterRepeats_subset (l : List JSVal) : ∀ y ∈ removeLaterRepeats l, y ∈ l := by
  induction l with
  | nil => simp [removeLaterRepeats]
  | cons x xs ih =>
    intro y hy
    simp only [removeLaterRepeats, List.mem_cons, List.mem_filter] at hy
    rcases hy with rfl | ⟨h, _⟩
    · simp
    · exact List.mem_cons_of_mem _ (ih y h)

theorem mem_removeLaterRepeats (l : List JSVal) : ∀ y ∈ l, y ∈ removeLaterRepeats l := by
  induction l with
  | nil => simp
  | cons x xs ih =>
    intro y hy
    simp only [removeLaterRepeats, List.mem_cons, List.mem_filter]
    by_cases e : y = x
    · exact Or.inl e
    · rcases List.mem_cons.1 hy with h | h
      · exact Or.inl h
      · exact Or.inr ⟨ih y h, by simpa using e⟩

theorem removeLaterRepeats_nodup (l : List JSVal) : (removeLaterRepeats l).Nodup := by
  induction l with
  | nil => simp [removeLaterRepeats]
  | cons x xs ih =>
    simp only [removeLaterRepeats, List.nodup_cons, List.mem_filter]
    refine ⟨?_, ih.filter _⟩
    rintro ⟨_, h⟩
    simp at h

theorem foldl_pushIfAbsent_ids (cs : List GraphNode) :
    ∀ init : List GraphNode, (∀ c ∈ cs, c.id ≠ .num .nan) →
      (cs.foldl pushIfAbsent init).map (fun n => n.id) =
        init.map (fun n => n.id) ++
          (removeLaterRepeats (cs.map (fun n => n.id))).filter
            (fun y => decide (y ∉ init.map (fun n => n.id))) := by
  induction cs with
  | nil => intro init _; simp [removeLaterRepeats]
  | cons c cs ih =>
    intro init hv
    have hc : c.id ≠ .num .nan := hv c (List.mem_cons_self _ _)
    have hcs : ∀ d ∈ cs, d.id ≠ .num .nan := fun d hd => hv d (List.mem_cons_of_mem _ hd)
    rw [List.foldl_cons, ih _ hcs, pushIfAbsent_eq _ _ hc]
    by_cases hm : c.id ∈ init.map (fun n => n.id)
    · simp only [hm, if_true, List.map_cons, removeLaterRepeats]
      congr 1
      rw [List.filter_cons]
      simp only [hm, not_true_eq_false, decide_False, Bool.false_eq_true, if_false,
        List.filter_filter]
      apply List.filter_congr
      intro y _
      by_cases hy : y ∈ init.map (fun n => n.id)
      · simp [hy]
      · have : y ≠ c.id := fun e => hy (e ▸ hm)
        simp [hy, this]
    · simp only [hm, if_false, List.map_append, List.map_cons, List.map_nil, removeLaterRepeats,
        List.append_assoc, List.singleton_append]
      congr 1
      rw [List.filter_cons]
      simp only [hm, not_false_eq_true, decide_True, if_true, List.filter_filter]
      congr 1
      apply List.filter_congr
      intro y _
      by_cases hy : y ∈ init.map (fun n => n.id)
      · simp [hy]
      · by_cases e : y = c.id
        · simp [e]
        · simp [hy, e]

theorem foldl_pushIfAbsent_first (cs : List GraphNode) :
    ∀ (init : List GraphNode) (x : GraphNode), (∀ c ∈ cs, c.id ≠ .num .nan) →
      x ∈ cs.foldl pushIfAbsent init →
      x ∈ init ∨ (cs.find? (fun c => decide (c.id = x.id)) = some x ∧
        x.id ∉ init.map (fun n => n.id)) := by
  induction cs with
  | nil => intro init x _ hx; exact Or.inl hx
  | cons c cs ih =>
    intro init x hv hx
    have hc : c.id ≠ .num .nan := hv c (List.mem_cons_self _ _)
    have hcs : ∀ d ∈ cs, d.id ≠ .num .nan := fun d hd => hv d (List.mem_cons_of_mem _ hd)
    rw [List.foldl_cons, pushIfAbsent_eq _ _ hc] at hx
    rcases ih _ x hcs hx with h | ⟨hf, hn⟩
    · by_cases hm : c.id ∈ init.map (fun n => n.id)
      · rw [if_pos hm] at h
        exact Or.inl h
      · rw [if_neg hm] at h
        rcases List.mem_append.1 h with h | h
        · exact Or.inl h
        · have e : x = c := by simpa using h
          subst e
          exact Or.inr ⟨by simp, hm⟩
    · by_cases hm : c.id ∈ init.map (fun n => n.id)
      · rw [if_pos hm] at hn
        have hne : c.id ≠ x.id := fun e => hn (e ▸ hm)
        exact Or.inr ⟨by simp [List.find?_cons, hne, hf], hn⟩
      · rw [if_neg hm] at hn
        have hne : c.id ≠ x.id := by
          intro e
          apply hn
          simp [← e]
        refine Or.inr ⟨by simp [List.find?_cons, hne, hf], ?_⟩
        intro h
        apply hn
        simp only [List.map_append, List.mem_append]
        exact Or.inl h

/-! ## The two normalizers as push-if-absent loops -/

theorem foldl_processRecord (records : List Record) :
    ∀ acc : GraphData,
      (records.foldl processRecord acc).nodes = (occurrences records).foldl pushIfAbsent acc.nodes ∧
      (records.foldl processRecord acc).links = acc.links ++ records.map linkOf := by
  induction records with
  | nil => intro acc; simp [occurrences]
  | cons r rs ih =>
    intro acc
    have h := ih (processRecord acc r)
    simp only [List.foldl_cons]
    refine ⟨?_, ?_⟩
    · rw [h.1]
      simp [occurrences, processRecord, List.flatMap_cons]
    · rw [h.2]
      simp [processRecord]

theorem knowledgeGraph_nodes (records : List Record) :
    (knowledgeGraph records).nodes = (occurrences records).foldl pushIfAbsent [] :=
  (foldl_processRecord records _).1

theorem knowledgeGraph_links (records : List Record) :
    (knowledgeGraph records).links = records.map linkOf := by
  have h := (foldl_processRecord records { nodes := [], links := [] }).2
  simpa [knowledgeGraph] using h

theorem occurrences_valid (records : List Record) :
    ∀ c ∈ occurrences records, c.id ≠ .num .nan := by
  intro c hc
  simp only [occurrences, List.mem_flatMap, List.mem_cons, List.mem_singleton,
    List.not_mem_nil, or_false] at hc
  obtain ⟨r, _, rfl | rfl⟩ := hc
  · exact node1Id_ne_nan r
  · exact node2Id_ne_nan r

theorem occurrences_ids (records : List Record) :
    (occurrences records).map (fun n => n.id) =
      records.flatMap (fun record => [node1Id record, node2Id record]) := by
  induction records with
  | nil => rfl
  | cons r rs ih =>
    simp only [occurrences, List.flatMap_cons, List.map_append] at ih ⊢
    rw [ih]
    rfl

theorem knowledgeGraph_ids (records : List Record) :
    (knowledgeGraph records).nodes.map (fun n => n.id) =
      removeLaterRepeats (records.flatMap (fun record => [node1Id record, node2Id record])) := by
  rw [knowledgeGraph_nodes, foldl_pushIfAbsent_ids _ _ (occurrences_valid records),
    occurrences_ids]
  simp

theorem centeredNodes_eq (recs : List RawNode) :
    centeredNodes recs = (recs.map centeredNode).foldl pushIfAbsent [] := by
  simp [centeredNodes, List.foldl_map]

theorem centered_valid (recs : List RawNode) :
    ∀ c ∈ recs.map centeredNode, c.id ≠ .num .nan := by
  intro c hc
  obtain ⟨r, _, rfl⟩ := List.mem_map.1 hc
  exact idVal_ne_nan r

theorem centeredNodes_ids (recs : List RawNode) :
    (centeredNodes recs).map (fun n => n.id) = removeLaterRepeats (recs.map idVal) := by
  rw [centeredNodes_eq, foldl_pushIfAbsent_ids _ _ (centered_valid recs)]
  simp [List.map_map, Function.comp_def, centeredNode]


theorem mem_of_mem_foldl_pushIfAbsent (cs : List GraphNode) (x : GraphNode)
    (hv : ∀ c ∈ cs, c.id ≠ .num .nan) (hx : x ∈ cs.foldl pushIfAbsent []) :
    cs.find? (fun c => decide (c.id = x.id)) = some x ∧ x ∈ cs := by
  rcases foldl_pushIfAbsent_first cs [] x hv hx with h | ⟨h, _⟩
  · simp at h
  · exact ⟨h, List.mem_of_find?_eq_some h⟩

theorem find?_strictEq (cs : List GraphNode) (x : GraphNode) (hx : x.id ≠ .num .nan) :
    cs.find? (fun c => strictEq c.id x.id) = cs.find? (fun c => decide (c.id = x.id)) := by
  congr 1
  funext c
  exact strictEq_eq_decide _ _ hx

theorem strictEq_false_of_ne (a b : JSVal) (h : a ≠ b) : strictEq a b = false := by
  unfold strictEq
  split
  · rfl
  · simp [h]

/-! ## `/knowledgeGraph`: properties of the response -/

/-- C1: for every list of raw rows the ids of the output nodes are pairwise
different (as values, hence also under `===`), and every output node is the
first entity, in row order with source before target, that carries its id:
its label, type and properties are those of that first occurrence. -/
theorem C1_nodes_unique_first_occurrence (records : List Record) :
    ((knowledgeGraph records).nodes.map (fun n => n.id)).Nodup ∧
    (knowledgeGraph records).nodes.Pairwise (fun a b => strictEq a.id b.id = false) ∧
    ∀ x ∈ (knowledgeGraph records).nodes,
      (occurrences records).find? (fun c => strictEq c.id x.id) = some x := by
  have hnd : ((knowledgeGraph records).nodes.map (fun n => n.id)).Nodup := by
    rw [knowledgeGraph_ids]
    exact removeLaterRepeats_nodup _
  refine ⟨hnd, ?_, ?_⟩
  · have h := List.pairwise_map.1 hnd
    exact h.imp (fun {a b} hab => strictEq_false_of_ne _ _ hab)
  · intro x hx
    rw [knowledgeGraph_nodes] at hx
    have h := mem_of_mem_foldl_pushIfAbsent _ x (occurrences_valid records) hx
    rw [find?_strictEq _ _ (occurrences_valid records x h.2)]
    exact h.1

/-- C1, on the three sample rows: PoetA is retained once, from the first row. -/
theorem C1_witness :
    (occurrences scenarioRows).find? (fun c => strictEq c.id (JSVal.ofInt 1)) =
      some (sourceNode (wrote poetA poemX)) :=
  (C1_nodes_unique_first_occurrence scenarioRows).2.2 (sourceNode (wrote poetA poemX))
    (by decide)

/-- C2: for every list of raw rows the ids of the output nodes, in output
order, are the ids source 1, target 1, source 2, target 2, ... with every
later repetition removed. -/
theorem C2_node_order_first_appearance (records : List Record) :
    (knowledgeGraph records).nodes.map (fun n => n.id) =
      removeLaterRepeats (records.flatMap (fun record => [node1Id record, node2Id record])) :=
  knowledgeGraph_ids records

/-- C3: for every list of raw rows the links are, in row order, one link per
row made of the row's resolved source id, resolved target id and relationship
type; nothing is deduplicated, so there are as many links as rows. -/
theorem C3_one_link_per_row (records : List Record) :
    (knowledgeGraph records).links =
      records.map (fun record =>
        ({ source := node1Id record, target := node2Id record, type := record.r.type } :
          GraphLink)) ∧
    (knowledgeGraph records).links.length = records.length := by
  have h := knowledgeGraph_links records
  refine ⟨?_, ?_⟩
  · rw [h]
    rfl
  · rw [h, List.length_map]

/-- C4: for every list of raw rows, the source and the target of every output
link are ids of nodes of the same output. -/
theorem C4_link_endpoints_are_nodes (records : List Record) :
    ∀ l ∈ (knowledgeGraph records).links,
      (∃ a ∈ (knowledgeGraph records).nodes, a.id = l.source ∧ strictEq a.id l.source = true) ∧
      (∃ b ∈ (knowledgeGraph records).nodes, b.id = l.target ∧ strictEq b.id l.target = true) := by
  intro l hl
  rw [knowledgeGraph_links] at hl
  obtain ⟨r, hr, rfl⟩ := List.mem_map.1 hl
  have key : ∀ v, v ∈ [node1Id r, node2Id r] → v ≠ .num .nan →
      ∃ a ∈ (knowledgeGraph records).nodes, a.id = v ∧ strictEq a.id v = true := by
    intro v hv hnan
    have hm : v ∈ (knowledgeGraph records).nodes.map (fun n => n.id) := by
      rw [knowledgeGraph_ids]
      apply mem_removeLaterRepeats
      exact List.mem_flatMap.2 ⟨r, hr, hv⟩
    obtain ⟨a, ha, rfl⟩ := List.mem_map.1 hm
    exact ⟨a, ha, rfl, by rw [strictEq_eq_decide _ _ hnan]; simp⟩
  exact ⟨key _ (by simp [linkOf]) (node1Id_ne_nan r), key _ (by simp [linkOf]) (node2Id_ne_nan r)⟩

/-- C4, on the three sample rows: the target of the last link, PoemX, is the
id of an output node. -/
theorem C4_witness :
    ∃ b ∈ (knowledgeGraph scenarioRows).nodes,
      b.id = JSVal.ofInt 2 ∧ strictEq b.id (JSVal.ofInt 2) = true :=
  ((C4_link_endpoints_are_nodes scenarioRows)
    { source := JSVal.ofInt 4, target := JSVal.ofInt 2, type := "WROTE" } (by decide)).2

/-- C5: three rows A->X, A->Y, B->X over four entities with different ids
normalize to exactly the 4 nodes A, X, Y, B in this order, A appearing once,
and to exactly 3 links, one per row in row order. -/
theorem C5_three_rows_four_nodes (r1 r2 r3 : Record)
    (hA : node1Id r2 = node1Id r1) (hX : node2Id r3 = node2Id r1)
    (hd : [node1Id r1, node2Id r1, node2Id r2, node1Id r3].Nodup) :
    (knowledgeGraph [r1, r2, r3]).nodes =
      [sourceNode r1, targetNode r1, targetNode r2, sourceNode r3] ∧
    (knowledgeGraph [r1, r2, r3]).nodes.length = 4 ∧
    ((knowledgeGraph [r1, r2, r3]).nodes.map (fun n => n.id)).count (node1Id r1) = 1 ∧
    (knowledgeGraph [r1, r2, r3]).links = [linkOf r1, linkOf r2, linkOf r3] ∧
    (knowledgeGraph [r1, r2, r3]).links.length = 3 := by
  have hs : ∀ (nodes : List GraphNode) (r : Record), pushIfAbsent nodes (sourceNode r) =
      if node1Id r ∈ nodes.map (fun n => n.id) then nodes else nodes ++ [sourceNode r] :=
    fun nodes r => pushIfAbsent_eq nodes (sourceNode r) (node1Id_ne_nan r)
  have ht : ∀ (nodes : List GraphNode) (r : Record), pushIfAbsent nodes (targetNode r) =
      if node2Id r ∈ nodes.map (fun n => n.id) then nodes else nodes ++ [targetNode r] :=
    fun nodes r => pushIfAbsent_eq nodes (targetNode r) (node2Id_ne_nan r)
  simp only [List.nodup_cons, List.mem_cons, List.mem_singleton, List.not_mem_nil, not_or,
    or_false, not_false_eq_true, List.nodup_nil, and_true] at hd
  obtain ⟨⟨h12, h13, h14⟩, ⟨h23, h24⟩, h34⟩ := hd
  have hn : (knowledgeGraph [r1, r2, r3]).nodes =
      [sourceNode r1, targetNode r1, targetNode r2, sourceNode r3] := by
    simp only [knowledgeGraph, List.foldl_cons, List.foldl_nil, processRecord, hs, ht]
    simp [sourceNode, targetNode, hA, hX, h12, h13, h14, h23, h24, h34, Ne.symm h12,
      Ne.symm h13, Ne.symm h14, Ne.symm h23, Ne.symm h24, Ne.symm h34]
  refine ⟨hn, by rw [hn]; rfl, ?_, ?_, ?_⟩
  · rw [hn]
    simp [sourceNode, targetNode, List.count_cons, h12, h13, h14, Ne.symm h12, Ne.symm h13,
      Ne.symm h14]
  · rw [knowledgeGraph_links]
    rfl
  · rw [knowledgeGraph_links]
    rfl

/-- C5, on the sample rows with identities 1 (PoetA), 2 (PoemX), 3 (PoemY)
and 4 (PoetB). -/
theorem C5_witness :
    (knowledgeGraph scenarioRows).nodes.map (fun n => (n.id, n.label)) =
      [(JSVal.ofInt 1, .str "PoetA"), (JSVal.ofInt 2, .str "PoemX"),
        (JSVal.ofInt 3, .str "PoemY"), (JSVal.ofInt 4, .str "PoetB")] ∧
    (knowledgeGraph scenarioRows).links.length = 3 := by
  have h := C5_three_rows_four_nodes (wrote poetA poemX) (wrote poetA poemY) (wrote poetB poemX)
    (by decide) (by decide) (by decide)
  exact ⟨by rw [show scenarioRows = [wrote poetA poemX, wrote poetA poemY, wrote poetB poemX]
    from rfl, h.1]; decide, h.2.2.2.2⟩


/-! ## Labels, ids and types -/

theorem labelChain_eq (n t g d : JSVal) :
    ((n.or t).or g).or d =
      if n.truthy then n else if t.truthy then t else if g.truthy then g else d := by
  unfold JSVal.or
  by_cases hn : n.truthy = true <;> by_cases ht : t.truthy = true <;>
    by_cases hg : g.truthy = true <;> simp [hn, ht, hg]

/-- C6 fails as stated: a Poem node whose `name` is the empty string and whose
`title` is "Jing Ye Si" has both properties, and both normalizers resolve its
label to the title, not to the name value. -/
theorem C6_counterexample :
    (emptyNamePoem.properties.getD []).lookup "name" = some (.str "") ∧
    (emptyNamePoem.properties.getD []).lookup "title" = some (.str "Jing Ye Si") ∧
    node1Label (wrote emptyNamePoem poemX) = .str "Jing Ye Si" ∧
    node2Label (wrote poetA emptyNamePoem) = .str "Jing Ye Si" ∧
    labelText emptyNamePoem = .str "Jing Ye Si" ∧
    ¬ (∀ raw : RawNode, ((raw.properties.getD []).lookup "name").isSome = true →
        ((raw.properties.getD []).lookup "title").isSome = true →
        labelText raw = (raw.properties.getD []).get "name") := by
  refine ⟨by decide, by decide, by decide, by decide, by decide, ?_⟩
  intro h
  exact absurd (h emptyNamePoem (by decide) (by decide)) (by decide)

/-- C6 as amended: for every node whose `name` value is truthy (a non-empty
string, a non-zero number, `true`, an object), whatever its `title`, the label
resolved by either normalizer is the `name` value. -/
theorem C6_truthy_name_is_label (record : Record) (raw : RawNode) :
    ((record.sourceProps.get "name").truthy = true →
      node1Label record = record.sourceProps.get "name") ∧
    ((record.targetProps.get "name").truthy = true →
      node2Label record = record.targetProps.get "name") ∧
    (((raw.properties.getD []).get "name").truthy = true →
      labelText raw = (raw.properties.getD []).get "name") := by
  refine ⟨?_, ?_, ?_⟩
  · intro h
    rw [node1Label, labelChain_eq, if_pos h]
  · intro h
    rw [node2Label, labelChain_eq, if_pos h]
  · intro h
    rw [labelText, labelChain_eq, if_pos h]

/-- C6 as amended, on PoetA (a `name`, no `title`) written to a poem that has
both a `name` and a `title`. -/
theorem C6_witness :
    node1Label (wrote poetA poemX) = .str "PoetA" ∧
    node2Label (wrote poetA
      { identity := some 9, labels := some ["Poem"],
        properties := some [("title", .str "Chun Xiao"), ("name", .str "Spring Dawn")] }) =
      .str "Spring Dawn" ∧
    labelText poetA = .str "PoetA" :=
  ⟨(C6_truthy_name_is_label (wrote poetA poemX) poetA).1 (by decide),
    (C6_truthy_name_is_label (wrote poetA
      { identity := some 9, labels := some ["Poem"],
        properties := some [("title", .str "Chun Xiao"), ("name", .str "Spring Dawn")] })
      poetA).2.1 (by decide),
    (C6_truthy_name_is_label (wrote poetA poemX) poetA).2.2 (by decide)⟩

/-- C7 fails as stated: a node with identity 5 whose only property is a
`genre` holding the empty string gets the label "5" from both normalizers,
not the genre value. -/
theorem C7_counterexample :
    emptyGenreNode.properties = some [("genre", .str "")] ∧
    labelText emptyGenreNode = .str "5" ∧
    node1Label (wrote emptyGenreNode poemX) = .str "5" ∧
    labelText emptyGenreNode ≠ (emptyGenreNode.properties.getD []).get "genre" ∧
    ¬ (∀ (raw : RawNode) (g : JSVal), raw.properties = some [("genre", g)] →
        labelText raw = g) := by
  refine ⟨rfl, by decide, by decide, by decide, ?_⟩
  intro h
  exact absurd (h emptyGenreNode (.str "") rfl) (by decide)

/-- C7 as amended: in both normalizers the label is the first truthy value
among `name`, `title`, `genre`, in that order, else the stringified identity;
so a node whose `name` and `title` are absent or falsy and whose `genre` is
truthy gets the genre value, a node where none of the three is truthy (in
particular where none is present) gets `String(identity)`, and that string is
"null" when the identity is absent. -/
theorem C7_label_chain (record : Record) (raw : RawNode) :
    node1Label record = labelChain record.sourceProps (node1NeoId record) ∧
    node2Label record = labelChain record.targetProps (node2NeoId record) ∧
    labelText raw = labelChain (raw.properties.getD []) raw.identity ∧
    (∀ (props : Props) (neoId : Option Int), (props.get "name").truthy = false →
      (props.get "title").truthy = false → (props.get "genre").truthy = true →
      labelChain props neoId = props.get "genre") ∧
    (∀ (props : Props) (neoId : Option Int), (props.get "name").truthy = false →
      (props.get "title").truthy = false → (props.get "genre").truthy = false →
      labelChain props neoId = .str (stringOfNeoId neoId)) ∧
    (∀ (props : Props) (key : String), props.lookup key = none →
      (props.get key).truthy = false) ∧
    stringOfNeoId none = "null" ∧
    (∀ i : Int, stringOfNeoId (some i) = toString i) := by
  refine ⟨?_, ?_, ?_, ?_, ?_, ?_, rfl, fun _ => rfl⟩
  · rw [node1Label, labelChain_eq]; rfl
  · rw [node2Label, labelChain_eq]; rfl
  · rw [labelText, labelChain_eq]; rfl
  · intro props neoId hn ht hg
    simp [labelChain, hn, ht, hg]
  · intro props neoId hn ht hg
    simp [labelChain, hn, ht, hg]
  · intro props key h
    simp [Props.get, h, JSVal.truthy]

/-- C7 as amended, on a node whose only property is the genre "ci" and on a
node without properties and identity. -/
theorem C7_witness :
    labelChain (genreNode.properties.getD []) genreNode.identity = .str "ci" ∧
    labelChain (bareNode.properties.getD []) bareNode.identity = .str "null" ∧
    (Props.get [] "name").truthy = false :=
  ⟨(C7_label_chain (wrote genreNode poemX) genreNode).2.2.2.1 _ _
      (by decide) (by decide) (by decide),
    (C7_label_chain (wrote genreNode poemX) genreNode).2.2.2.2.1 _ _
      (by decide) (by decide) (by decide),
    (C7_label_chain (wrote genreNode poemX) genreNode).2.2.2.2.2.1 [] "name" rfl⟩

/-- C8: the id of every entity of a row, and of every emitted node, is the
internal identity when it is present and the resolved label otherwise, in
both normalizers; consequently, whenever two entities without identity
resolve to the same label, the output holds exactly one node with that id. -/
theorem C8_id_is_identity_else_label (records : List Record) (recs : List RawNode) :
    (∀ record : Record,
      node1Id record = (match node1NeoId record with
        | some i => JSVal.ofInt i
        | none => node1Label record) ∧
      node2Id record = (match node2NeoId record with
        | some i => JSVal.ofInt i
        | none => node2Label record)) ∧
    (∀ x ∈ (knowledgeGraph records).nodes,
      x.id = (match x.neo4jId with
        | some i => JSVal.ofInt i
        | none => x.label)) ∧
    (∀ x ∈ centeredNodes recs,
      x.id = (match x.neo4jId with
        | some i => JSVal.ofInt i
        | none => x.label)) ∧
    (∀ c1 ∈ occurrences records, ∀ c2 ∈ occurrences records,
      c1.neo4jId = none → c2.neo4jId = none → c1.label = c2.label →
      ((knowledgeGraph records).nodes.map (fun n => n.id)).count c1.label = 1 ∧
      c1.id = c1.label ∧ c2.id = c1.label) ∧
    (∀ a ∈ recs, ∀ b ∈ recs,
      a.identity = none → b.identity = none → labelText a = labelText b →
      ((centeredNodes recs).map (fun n => n.id)).count (labelText a) = 1 ∧
      idVal a = labelText a ∧ idVal b = labelText a) := by
  have hocc : ∀ c ∈ occurrences records,
      c.id = (match c.neo4jId with
        | some i => JSVal.ofInt i
        | none => c.label) := by
    intro c hc
    simp only [occurrences, List.mem_flatMap, List.mem_cons, List.mem_singleton,
      List.not_mem_nil, or_false] at hc
    obtain ⟨r, _, rfl | rfl⟩ := hc
    · rfl
    · rfl
  refine ⟨fun _ => ⟨rfl, rfl⟩, ?_, ?_, ?_, ?_⟩
  · intro x hx
    rw [knowledgeGraph_nodes] at hx
    exact hocc x (mem_of_mem_foldl_pushIfAbsent _ x (occurrences_valid records) hx).2
  · intro x hx
    rw [centeredNodes_eq] at hx
    have h := (mem_of_mem_foldl_pushIfAbsent _ x (centered_valid recs) hx).2
    obtain ⟨r, _, rfl⟩ := List.mem_map.1 h
    rfl
  · intro c1 h1 c2 h2 e1 e2 el
    have i1 : c1.id = c1.label := by rw [hocc c1 h1, e1]
    have i2 : c2.id = c1.label := by rw [hocc c2 h2, e2, el]
    refine ⟨?_, i1, i2⟩
    apply List.count_eq_one_of_mem
    · rw [knowledgeGraph_ids]
      exact removeLaterRepeats_nodup _
    · rw [knowledgeGraph_ids, ← occurrences_ids]
      apply mem_removeLaterRepeats
      exact List.mem_map.2 ⟨c1, h1, i1⟩
  · intro a ha b hb ea eb el
    have i1 : idVal a = labelText a := by simp [idVal, ea]
    have i2 : idVal b = labelText a := by simp [idVal, eb, el]
    refine ⟨?_, i1, i2⟩
    apply List.count_eq_one_of_mem
    · rw [centeredNodes_ids]
      exact removeLaterRepeats_nodup _
    · rw [centeredNodes_ids]
      apply mem_removeLaterRepeats
      exact List.mem_map.2 ⟨a, ha, i1⟩

/-- C8, on two rows whose sources are two different entities without
identity, both named "Anon": the output has one node with the id "Anon". -/
theorem C8_witness :
    sourceNode (wrote anonEarly poemX) ≠ sourceNode (wrote anonLate poemY) ∧
    ((knowledgeGraph anonRows).nodes.map (fun n => n.id)).count (.str "Anon") = 1 ∧
    ((centeredNodes [anonEarly, anonLate]).map (fun n => n.id)).count (.str "Anon") = 1 :=
  ⟨by decide,
    ((C8_id_is_identity_else_label anonRows [anonEarly, anonLate]).2.2.2.1
      (sourceNode (wrote anonEarly poemX)) (by decide)
      (sourceNode (wrote anonLate poemY)) (by decide) rfl rfl (by decide)).1,
    ((C8_id_is_identity_else_label anonRows [anonEarly, anonLate]).2.2.2.2
      anonEarly (by decide) anonLate (by decide) rfl rfl (by decide)).1⟩

theorem firstLabel_or_unknown (labels : List String) (h : "" ∉ labels) :
    (firstLabel labels).or (.str "unknown") = firstLabelOrUnknown labels := by
  cases labels with
  | nil => rfl
  | cons l ls =>
    have hl : l ≠ "" := fun e => h (by simp [e])
    simp [firstLabel, firstLabelOrUnknown, JSVal.or, JSVal.truthy, hl]

/-- C9: every node emitted by either normalizer is built from an entity of
the input, its `type` is that entity's first label when it has one and
"unknown" when it has no labels, and its `group` equals its `type`. Labels
are the non-empty strings the database hands out. -/
theorem C9_type_first_label_or_unknown (records : List Record) (recs : List RawNode)
    (hl : ∀ r ∈ records, "" ∉ r.sourceLabels ∧ "" ∉ r.targetLabels)
    (hc : ∀ raw ∈ recs, "" ∉ raw.labels.getD []) :
    (∀ x ∈ (knowledgeGraph records).nodes, x.group = x.type ∧
      ∃ r ∈ records,
        (x = sourceNode r ∧ x.type = firstLabelOrUnknown r.sourceLabels) ∨
        (x = targetNode r ∧ x.type = firstLabelOrUnknown r.targetLabels)) ∧
    (∀ x ∈ centeredNodes recs, x.group = x.type ∧
      ∃ raw ∈ recs, x = centeredNode raw ∧
        x.type = firstLabelOrUnknown (raw.labels.getD [])) := by
  refine ⟨?_, ?_⟩
  · intro x hx
    rw [knowledgeGraph_nodes] at hx
    have h := (mem_of_mem_foldl_pushIfAbsent _ x (occurrences_valid records) hx).2
    simp only [occurrences, List.mem_flatMap, List.mem_cons, List.mem_singleton,
      List.not_mem_nil, or_false] at h
    obtain ⟨r, hr, rfl | rfl⟩ := h
    · exact ⟨rfl, r, hr, Or.inl ⟨rfl, firstLabel_or_unknown _ (hl r hr).1⟩⟩
    · exact ⟨rfl, r, hr, Or.inr ⟨rfl, firstLabel_or_unknown _ (hl r hr).2⟩⟩
  · intro x hx
    rw [centeredNodes_eq] at hx
    have h := (mem_of_mem_foldl_pushIfAbsent _ x (centered_valid recs) hx).2
    obtain ⟨raw, hraw, rfl⟩ := List.mem_map.1 h
    exact ⟨rfl, raw, hraw, rfl, firstLabel_or_unknown _ (hc raw hraw)⟩

/-- C9, on the two rows with unnamed sources: the first source has no labels
and is typed "unknown", the second row's target is typed by its first label. -/
theorem C9_witness :
    ((sourceNode (wrote anonEarly poemX)).group = (sourceNode (wrote anonEarly poemX)).type ∧
      ∃ r ∈ anonRows,
        (sourceNode (wrote anonEarly poemX) = sourceNode r ∧
          (sourceNode (wrote anonEarly poemX)).type = firstLabelOrUnknown r.sourceLabels) ∨
        (sourceNode (wrote anonEarly poemX) = targetNode r ∧
          (sourceNode (wrote anonEarly poemX)).type = firstLabelOrUnknown r.targetLabels)) ∧
    (sourceNode (wrote anonEarly poemX)).type = .str "unknown" ∧
    (targetNode (wrote anonLate poemY)).type = .str "Poem" :=
  ⟨(C9_type_first_label_or_unknown anonRows [anonEarly, poetA] (by decide) (by decide)).1
      (sourceNode (wrote anonEarly poemX)) (by decide),
    by decide, by decide⟩


/-! ## Pagination -/

theorem mathMax_zero_floor_nonneg (v : JSNum) (hv : v ≠ .nan) :
    (mathMax (.fin 0) (mathFloor v)).nonneg := by
  cases v with
  | nan => exact absurd rfl hv
  | fin q => simp [mathFloor, mathMax, JSNum.nonneg]
  | posInf => simp [mathFloor, mathMax, JSNum.nonneg]
  | negInf => simp [mathFloor, mathMax, JSNum.nonneg]

theorem mathMax_zero_floor_neg (q : ℚ) (hq : q < 0) :
    mathMax (.fin 0) (mathFloor (.fin q)) = .fin 0 := by
  have h : ((Rat.floor q : Int) : ℚ) ≤ 0 := by
    have h1 : ((⌊q⌋ : Int) : ℚ) ≤ q := Int.floor_le q
    have h2 : Rat.floor q = ⌊q⌋ := rfl
    rw [h2]
    linarith
  simp [mathFloor, mathMax, h]

/-- The value a handler computes from a query parameter with default `d`:
the parameter read, `NaN` replaced, then floored and clamped at 0. -/
theorem coerced_eq (d : ℚ) (input : Option String) :
    ∃ v : JSNum, v ≠ .nan ∧
      (let x := match input with
        | some s => if s ≠ "" then Number s else .fin d
        | none => .fin d
       let x := if isNaN x then .fin d else x
       mathMax (.fin 0) (mathFloor x)) = mathMax (.fin 0) (mathFloor v) := by
  cases input with
  | none => exact ⟨.fin d, by simp, by simp [isNaN]⟩
  | some s =>
    by_cases hs : s = ""
    · exact ⟨.fin d, by simp, by simp [hs, isNaN]⟩
    · by_cases hn : Number s = .nan
      · exact ⟨.fin d, by simp, by simp [hs, hn, isNaN]⟩
      · exact ⟨Number s, hn, by simp [hs, hn, isNaN]⟩

/-- C10 fails as stated: for the negative input "-5" the effective limit is 0
on both endpoints, not the default 200 or 50. -/
theorem C10_counterexample :
    Number "-5" = .fin (-5) ∧
    knowledgeGraphLimit (some "-5") = .fin 0 ∧
    knowledgeGraphLimit (some "-5") ≠ .fin 200 ∧
    poemsLimit (some "-5") = .fin 0 ∧
    poemsLimit (some "-5") ≠ .fin 50 := by
  refine ⟨by decide, by decide, by decide, by decide, by decide⟩

/-- C10 as amended: on `/knowledgeGraph` and `/poems`, an omitted `limit` or
`skip`, an empty one and one that `Number` maps to `NaN` (such as "abc") take
the default (200 and 0, 50 and 0); a negative one gives 0, which is what
`skip` defaults to but not `limit`; and no input makes the effective value
negative. -/
theorem C10_defaults_and_clamp :
    (knowledgeGraphLimit none = .fin 200 ∧ knowledgeGraphSkip none = .fin 0 ∧
      poemsLimit none = .fin 50 ∧ poemsSkip none = .fin 0) ∧
    Number "abc" = .nan ∧
    (∀ s : String, Number s = .nan →
      knowledgeGraphLimit (some s) = .fin 200 ∧ knowledgeGraphSkip (some s) = .fin 0 ∧
      poemsLimit (some s) = .fin 50 ∧ poemsSkip (some s) = .fin 0) ∧
    (∀ (s : String) (q : ℚ), Number s = .fin q → q < 0 →
      knowledgeGraphLimit (some s) = .fin 0 ∧ knowledgeGraphSkip (some s) = .fin 0 ∧
      poemsLimit (some s) = .fin 0 ∧ poemsSkip (some s) = .fin 0) ∧
    (∀ s : String, Number s = .negInf →
      knowledgeGraphLimit (some s) = .fin 0 ∧ knowledgeGraphSkip (some s) = .fin 0 ∧
      poemsLimit (some s) = .fin 0 ∧ poemsSkip (some s) = .fin 0) ∧
    (∀ input : Option String,
      (knowledgeGraphLimit input).nonneg ∧ (knowledgeGraphSkip input).nonneg ∧
      (poemsLimit input).nonneg ∧ (poemsSkip input).nonneg) ∧
    (knowledgeGraphLimit (some "") = .fin 200 ∧ knowledgeGraphSkip (some "") = .fin 0 ∧
      poemsLimit (some "") = .fin 50 ∧ poemsSkip (some "") = .fin 0) := by
  have hempty : Number "" = .fin 0 := by decide
  refine ⟨⟨by decide, by decide, by decide, by decide⟩, by decide, ?_, ?_, ?_, ?_,
    ⟨by decide, by decide, by decide, by decide⟩⟩
  · intro s hn
    have hs : s ≠ "" := by
      intro e
      rw [e, hempty] at hn
      exact absurd hn (by simp)
    refine ⟨?_, ?_, ?_, ?_⟩ <;>
      simp [knowledgeGraphLimit, knowledgeGraphSkip, poemsLimit, poemsSkip, hs, hn, isNaN,
        mathFloor, mathMax] <;> decide
  · intro s q hn hq
    have hs : s ≠ "" := by
      intro e
      rw [e, hempty] at hn
      have : (0 : ℚ) = q := by simpa using hn
      linarith
    have hm := mathMax_zero_floor_neg q hq
    refine ⟨?_, ?_, ?_, ?_⟩ <;>
      simp [knowledgeGraphLimit, knowledgeGraphSkip, poemsLimit, poemsSkip, hs, hn, isNaN, hm]
  · intro s hn
    have hs : s ≠ "" := by
      intro e
      rw [e, hempty] at hn
      exact absurd hn (by simp)
    refine ⟨?_, ?_, ?_, ?_⟩ <;>
      simp [knowledgeGraphLimit, knowledgeGraphSkip, poemsLimit, poemsSkip, hs, hn, isNaN,
        mathFloor, mathMax]
  · intro input
    refine ⟨?_, ?_, ?_, ?_⟩
    · obtain ⟨v, hv, e⟩ := coerced_eq 200 input
      exact (show knowledgeGraphLimit input = _ from e) ▸ mathMax_zero_floor_nonneg v hv
    · obtain ⟨v, hv, e⟩ := coerced_eq 0 input
      exact (show knowledgeGraphSkip input = _ from e) ▸ mathMax_zero_floor_nonneg v hv
    · obtain ⟨v, hv, e⟩ := coerced_eq 50 input
      exact (show poemsLimit input = _ from e) ▸ mathMax_zero_floor_nonneg v hv
    · obtain ⟨v, hv, e⟩ := coerced_eq 0 input
      exact (show poemsSkip input = _ from e) ▸ mathMax_zero_floor_nonneg v hv

/-- C10 as amended, on the inputs "abc", "-3.5" and "-Infinity". -/
theorem C10_witness :
    (knowledgeGraphLimit (some "abc") = .fin 200 ∧ knowledgeGraphSkip (some "abc") = .fin 0 ∧
      poemsLimit (some "abc") = .fin 50 ∧ poemsSkip (some "abc") = .fin 0) ∧
    (knowledgeGraphLimit (some "-3.5") = .fin 0 ∧ knowledgeGraphSkip (some "-3.5") = .fin 0 ∧
      poemsLimit (some "-3.5") = .fin 0 ∧ poemsSkip (some "-3.5") = .fin 0) ∧
    (knowledgeGraphLimit (some "-Infinity") = .fin 0 ∧
      knowledgeGraphSkip (some "-Infinity") = .fin 0 ∧
      poemsLimit (some "-Infinity") = .fin 0 ∧ poemsSkip (some "-Infinity") = .fin 0) :=
  ⟨C10_defaults_and_clamp.2.2.1 "abc" (by decide),
    C10_defaults_and_clamp.2.2.2.1 "-3.5" (mkRat (-7) 2) (by decide) (by decide),
    C10_defaults_and_clamp.2.2.2.2.1 "-Infinity" (by decide)⟩

/-! ## Pagination values are integers, except at `Infinity` -/

theorem floor_intCast (z : Int) : Rat.floor ((z : Int) : ℚ) = z := by
  have h : Rat.floor ((z : Int) : ℚ) = ⌊((z : Int) : ℚ)⌋ := rfl
  rw [h, Int.floor_intCast]

theorem mathMax_zero_floor_fin (q : ℚ) :
    mathMax (.fin 0) (mathFloor (.fin q)) = .fin (((max 0 (Rat.floor q)).toNat : Nat) : ℚ) := by
  have e : (((max 0 (Rat.floor q)).toNat : Nat) : Int) = max 0 (Rat.floor q) :=
    Int.toNat_of_nonneg (le_max_left _ _)
  have h : (((max 0 (Rat.floor q)).toNat : Nat) : ℚ) = max 0 ((Rat.floor q : Int) : ℚ) := by
    rw [← Int.cast_natCast, e]
    push_cast
    rfl
  simp only [mathFloor, mathMax]
  rw [h]

/-- Every coerced parameter is `Infinity` or a natural number. -/
theorem coerced_cases (d : ℚ) (input : Option String) :
    (let x := match input with
        | some s => if s ≠ "" then Number s else .fin d
        | none => .fin d
     let x := if isNaN x then .fin d else x
     mathMax (.fin 0) (mathFloor x)) = .posInf ∨
    ∃ n : Nat, (let x := match input with
        | some s => if s ≠ "" then Number s else .fin d
        | none => .fin d
     let x := if isNaN x then .fin d else x
     mathMax (.fin 0) (mathFloor x)) = .fin (n : ℚ) := by
  obtain ⟨v, hv, e⟩ := coerced_eq d input
  rw [e]
  cases v with
  | nan => exact absurd rfl hv
  | fin q => exact Or.inr ⟨_, mathMax_zero_floor_fin q⟩
  | posInf => exact Or.inl (by simp [mathFloor, mathMax])
  | negInf => exact Or.inr ⟨0, by simp [mathFloor, mathMax]⟩

theorem poemsLimit_cases (queryLimit : Option String) :
    poemsLimit queryLimit = .posInf ∨ ∃ n : Nat, poemsLimit queryLimit = .fin (n : ℚ) :=
  coerced_cases 50 queryLimit

/-- A non-empty parameter that `Number` reads as a finite value is coerced to
the natural number `max(0, floor(x))`. -/
theorem coerced_of_finite (s : String) (q : ℚ) (hs : s ≠ "") (h : Number s = .fin q) :
    knowledgeGraphLimit (some s) = .fin (((max 0 (Rat.floor q)).toNat : Nat) : ℚ) ∧
    knowledgeGraphSkip (some s) = .fin (((max 0 (Rat.floor q)).toNat : Nat) : ℚ) ∧
    poemsLimit (some s) = .fin (((max 0 (Rat.floor q)).toNat : Nat) : ℚ) ∧
    poemsSkip (some s) = .fin (((max 0 (Rat.floor q)).toNat : Nat) : ℚ) := by
  have hm := mathMax_zero_floor_fin q
  refine ⟨?_, ?_, ?_, ?_⟩ <;>
    simp only [knowledgeGraphLimit, knowledgeGraphSkip, poemsLimit, poemsSkip, hs, h, isNaN,
      ne_eq, not_false_eq_true, if_true, reduceCtorEq, decide_False, Bool.false_eq_true,
      if_false, hm]

/-- C11: at the input "Infinity" (which `Number` reads as a number, not as
`NaN`) the `limit` and `skip` that `/knowledgeGraph` and `/poems` compute are
`Infinity`, which is not a non-negative integer. -/
theorem C11_infinity_is_not_coerced :
    Number "Infinity" = .posInf ∧
    knowledgeGraphLimit (some "Infinity") = .posInf ∧
    knowledgeGraphSkip (some "Infinity") = .posInf ∧
    poemsLimit (some "Infinity") = .posInf ∧
    poemsSkip (some "Infinity") = .posInf ∧
    ¬ (knowledgeGraphLimit (some "Infinity")).isNonnegInteger ∧
    ¬ (poemsLimit (some "Infinity")).isNonnegInteger := by
  have h1 : knowledgeGraphLimit (some "Infinity") = .posInf := by decide
  have h2 : poemsLimit (some "Infinity") = .posInf := by decide
  refine ⟨by decide, h1, by decide, h2, by decide, ?_, ?_⟩
  · rintro ⟨n, hn⟩
    rw [h1] at hn
    exact absurd hn (by simp)
  · rintro ⟨n, hn⟩
    rw [h2] at hn
    exact absurd hn (by simp)

/-! ## The node-centered endpoint: depth, limit and the node id -/

set_option maxRecDepth 100000 in
/-- C12 fails on the request `/knowledgeGraph/node/12?depth=-3&limit=-5`: the
depth is -3 and the limit -5, neither is clamped; `nodesQuery` and `relsQuery`
are sent with the pattern `[*1..-3]` and with -5 as `$limit`. The handlers
beside it clamp the same input: the limit of `/knowledgeGraph` and of `/poems`
is 0 and the expression of `/poems/raw` gives 1. -/
theorem C12_negative_depth_and_limit_are_sent :
    centeredDepth (some "-3") = -3 ∧
    ¬ (0 < centeredDepth (some "-3")) ∧
    centeredLimit (some "-5") = -5 ∧
    ¬ (0 ≤ centeredLimit (some "-5")) ∧
    nodesQuery (centeredDepth (some "-3")) =
      "MATCH (start) WHERE id(start) = $nodeId\nMATCH p=(start)-[*1..-3]-(m)\n" ++
      "UNWIND nodes(p) as nd\nRETURN DISTINCT nd\nLIMIT $limit" ∧
    relsQuery (centeredDepth (some "-3")) =
      "MATCH (start) WHERE id(start) = $nodeId\nMATCH p=(start)-[*1..-3]-(m)\n" ++
      "UNWIND relationships(p) as rl\nRETURN DISTINCT rl\nLIMIT $limit" ∧
    (nodeCenteredHandler sampleDb "12" (some "-3") (some "-5")).calls =
      [{ text := existsQuery, nodeId := 12, limit := none },
       { text := nodesQuery (-3), nodeId := 12, limit := some (-5) },
       { text := relsQuery (-3), nodeId := 12, limit := some (-5) }] ∧
    knowledgeGraphLimit (some "-5") = .fin 0 ∧
    poemsLimit (some "-5") = .fin 0 ∧
    poemsRawLimit (some "-5") = 1 := by
  refine ⟨by decide, by decide, by decide, by decide, by decide, by decide, by decide,
    by decide, by decide, by decide⟩

/-- The defaults of the node-centered handler: the depth is 1 and the limit
200 when the input is missing or `parseInt` reads no number or reads 0 from
it; when `parseInt` reads a positive integer, depth and limit are that
integer; so for every input that is not read as a negative integer both are
positive integers. -/
theorem centered_depth_limit_defaults (q : Option String) :
    parseIntQuery none = none ∧
    (parseIntQuery q = none ∨ parseIntQuery q = some 0 →
      centeredDepth q = 1 ∧ centeredLimit q = 200) ∧
    (∀ n : Int, parseIntQuery q = some n → 0 < n →
      centeredDepth q = n ∧ centeredLimit q = n) ∧
    ((∀ n : Int, parseIntQuery q = some n → 0 ≤ n) →
      0 < centeredDepth q ∧ 0 < centeredLimit q) := by
  refine ⟨by decide, ?_, ?_, ?_⟩
  · rintro (h | h) <;> simp [centeredDepth, centeredLimit, orDefault, h]
  · intro n h hn
    have hne : n ≠ 0 := ne_of_gt hn
    simp [centeredDepth, centeredLimit, orDefault, h, hne]
  · intro h
    cases hp : parseIntQuery q with
    | none => simp [centeredDepth, centeredLimit, orDefault, hp]
    | some n =>
      have hn := h n hp
      by_cases h0 : n = 0
      · simp [centeredDepth, centeredLimit, orDefault, hp, h0]
      · have hpos : 0 < n := lt_of_le_of_ne hn (Ne.symm h0)
        simp [centeredDepth, centeredLimit, orDefault, hp, h0, hpos]

/-- The defaults of the node-centered handler on the inputs "abc", "0" and "3". -/
theorem centered_depth_limit_examples :
    (centeredDepth (some "abc") = 1 ∧ centeredLimit (some "abc") = 200) ∧
    (centeredDepth (some "0") = 1 ∧ centeredLimit (some "0") = 200) ∧
    (centeredDepth (some "3") = 3 ∧ centeredLimit (some "3") = 3) ∧
    (0 < centeredDepth none ∧ 0 < centeredLimit none) :=
  ⟨(centered_depth_limit_defaults (some "abc")).2.1 (Or.inl (by decide)),
    (centered_depth_limit_defaults (some "0")).2.1 (Or.inr (by decide)),
    (centered_depth_limit_defaults (some "3")).2.2.1 3 (by decide) (by decide),
    (centered_depth_limit_defaults none).2.2.2
      (fun n h => by rw [(by decide : parseIntQuery none = none)] at h; cases h)⟩

/-- C13 fails as stated: for the path segment "12abc" `parseInt` reads 12, so
the handler does not answer 400 and runs the existence query for node 12 (and,
the node existing, the node and relationship queries). -/
theorem C13_counterexample :
    parseInt "12abc" = some 12 ∧
    nodeCenteredHandler sampleDb "12abc" none none =
      { response := .ok
          [centeredNode poetA, centeredNode poemX]
          [{ source := JSVal.ofInt 1, target := JSVal.ofInt 2, type := "WROTE" }]
          "与节点 12（深度 1）相关的子图" 2 1
        calls :=
          [{ text := existsQuery, nodeId := 12, limit := none },
           { text := nodesQuery 1, nodeId := 12, limit := some 200 },
           { text := relsQuery 1, nodeId := 12, limit := some 200 }] } := by
  refine ⟨by decide, by decide⟩

/-- C13 as amended: the handler answers 400 'Invalid nodeId', without running
any query, exactly for the path segments from which `parseInt` reads no
number (such as "abc"); a segment that starts with a number is not rejected
and the existence query is run for that number. -/
theorem C13_invalid_node_id (db : CenteredDb) (nodeIdParam : String)
    (queryDepth queryLimit : Option String) :
    parseInt "abc" = none ∧
    (parseInt nodeIdParam = none →
      nodeCenteredHandler db nodeIdParam queryDepth queryLimit =
        { response := .error 400 "Invalid nodeId", calls := [] }) ∧
    (∀ nodeId : Int, parseInt nodeIdParam = some nodeId →
      (nodeCenteredHandler db nodeIdParam queryDepth queryLimit).response ≠
        .error 400 "Invalid nodeId" ∧
      (nodeCenteredHandler db nodeIdParam queryDepth queryLimit).calls.head? =
        some { text := existsQuery, nodeId := nodeId, limit := none }) := by
  refine ⟨by decide, ?_, ?_⟩
  · intro h
    simp [nodeCenteredHandler, h]
  · intro nodeId h
    simp only [nodeCenteredHandler, h]
    split
    · simp
    · split
      · simp
      · split
        · simp
        · split <;> simp

/-- C13 as amended, on the segments "abc" (rejected) and "12" (looked up). -/
theorem C13_witness :
    nodeCenteredHandler sampleDb "abc" (some "2") none =
      { response := .error 400 "Invalid nodeId", calls := [] } ∧
    (nodeCenteredHandler sampleDb "12" (some "2") none).calls.head? =
      some { text := existsQuery, nodeId := 12, limit := none } :=
  ⟨(C13_invalid_node_id sampleDb "abc" (some "2") none).2.1 (by decide),
    ((C13_invalid_node_id sampleDb "12" (some "2") none).2.2 12 (by decide)).2⟩

/-! ## `/knowledgeGraph`: the bound in the query text -/

theorem length_sampleQueryRows {α : Type} (shuffled : List α) (limit skip : Nat) :
    (sampleQueryRows shuffled limit skip).length = min limit shuffled.length - skip := by
  simp only [sampleQueryRows, List.length_take, List.length_drop]
  omega

theorem length_singleBoundRows {α : Type} (shuffled : List α) (limit skip : Nat) :
    (singleBoundRows shuffled limit skip).length = min limit (shuffled.length - skip) := by
  simp [singleBoundRows, List.length_take, List.length_drop]

set_option maxRecDepth 100000 in
/-- C14: without a search term the text sent to the database holds the clause
`LIMIT $limit` twice (once in the sampling `WITH`, once appended), with a
search term once; so of 10 sampled relationships, limit 4 and skip 2 return 2
rows where a single bound would return 4, and a skip of at least the limit
returns none. -/
theorem C14_sample_query_limits_twice :
    (∀ searchTerm : Option String,
      countOccurrences "LIMIT $limit".toList (pagedQuery searchTerm).toList =
        if hasSearchTerm searchTerm then 1 else 2) ∧
    hasSearchTerm none = false ∧ hasSearchTerm (some "  ") = false ∧
    countOccurrences "LIMIT $limit".toList (pagedQuery none).toList = 2 ∧
    (sampleQueryRows (List.range 10) 4 2).length = 2 ∧
    (singleBoundRows (List.range 10) 4 2).length = 4 ∧
    (∀ (shuffled : List Nat) (limit skip : Nat),
      (sampleQueryRows shuffled limit skip).length = min limit shuffled.length - skip) ∧
    (∀ (shuffled : List Nat) (limit : Nat), sampleQueryRows shuffled limit limit = []) := by
  refine ⟨?_, by decide, by decide, by decide, by decide, by decide, ?_, ?_⟩
  · intro searchTerm
    unfold pagedQuery knowledgeGraphQuery
    cases hasSearchTerm searchTerm with
    | true => decide
    | false => decide
  · intro shuffled limit skip
    exact length_sampleQueryRows shuffled limit skip
  · intro shuffled limit
    apply List.eq_nil_of_length_eq_zero
    rw [length_sampleQueryRows]
    omega

/-! ## `/poems`: the `seen` map -/

theorem mem_keepFirsts {α : Type} [DecidableEq α] (l : List α) (y : α) :
    y ∈ keepFirsts l ↔ y ∈ l := by
  induction l with
  | nil => simp [keepFirsts]
  | cons x xs ih =>
    simp only [keepFirsts, List.mem_cons, List.mem_filter, ih]
    by_cases e : y = x
    · simp [e]
    · simp [e]

theorem keepFirsts_nodup {α : Type} [DecidableEq α] (l : List α) : (keepFirsts l).Nodup := by
  induction l with
  | nil => simp [keepFirsts]
  | cons x xs ih =>
    simp only [keepFirsts, List.nodup_cons, List.mem_filter]
    refine ⟨?_, ih.filter _⟩
    rintro ⟨_, h⟩
    simp at h

theorem seenStep_eq (seen : List (Option Int × PoemItem)) (poemNode : Option RawNode) :
    seenStep seen poemNode =
      if poemIdVal poemNode ∈ seen.map (fun entry => entry.1) then seen
      else seen ++ [(poemIdVal poemNode, poemItem poemNode)] := by
  unfold seenStep
  have h : (seen.any (fun entry => decide (entry.1 = poemIdVal poemNode))) = true ↔
      poemIdVal poemNode ∈ seen.map (fun entry => entry.1) := by
    simp only [List.any_eq_true, decide_eq_true_eq, List.mem_map]
  by_cases hm : poemIdVal poemNode ∈ seen.map (fun entry => entry.1)
  · rw [if_pos (h.2 hm), if_pos hm]
  · rw [if_neg (fun e => hm (h.1 e)), if_neg hm]

theorem foldl_seenStep_keys (records : List (Option RawNode)) :
    ∀ init : List (Option Int × PoemItem),
      (records.foldl seenStep init).map (fun entry => entry.1) =
        init.map (fun entry => entry.1) ++
          (keepFirsts (records.map poemIdVal)).filter
            (fun k => decide (k ∉ init.map (fun entry => entry.1))) := by
  induction records with
  | nil => intro init; simp [keepFirsts]
  | cons r rs ih =>
    intro init
    rw [List.foldl_cons, ih, seenStep_eq]
    by_cases hm : poemIdVal r ∈ init.map (fun entry => entry.1)
    · simp only [hm, if_true, List.map_cons, keepFirsts]
      congr 1
      rw [List.filter_cons]
      simp only [hm, not_true_eq_false, decide_False, Bool.false_eq_true, if_false,
        List.filter_filter]
      apply List.filter_congr
      intro y _
      by_cases hy : y ∈ init.map (fun entry => entry.1)
      · simp [hy]
      · have : y ≠ poemIdVal r := fun e => hy (e ▸ hm)
        simp [hy, this]
    · simp only [hm, if_false, List.map_append, List.map_cons, List.map_nil, keepFirsts,
        List.append_assoc, List.singleton_append]
      congr 1
      rw [List.filter_cons]
      simp only [hm, not_false_eq_true, decide_True, if_true, List.filter_filter]
      congr 1
      apply List.filter_congr
      intro y _
      by_cases hy : y ∈ init.map (fun entry => entry.1)
      · simp [hy]
      · by_cases e : y = poemIdVal r
        · simp [e]
        · simp [hy, e]

theorem foldl_seenStep_first (records : List (Option RawNode)) :
    ∀ (init : List (Option Int × PoemItem)) (e : Option Int × PoemItem),
      e ∈ records.foldl seenStep init →
      e ∈ init ∨ ((records.map poemItem).find? (fun c => decide (c.id = e.1)) = some e.2 ∧
        e.2.id = e.1 ∧ e.1 ∉ init.map (fun entry => entry.1)) := by
  induction records with
  | nil => intro init e he; exact Or.inl he
  | cons r rs ih =>
    intro init e he
    rw [List.foldl_cons, seenStep_eq] at he
    have hid : (poemItem r).id = poemIdVal r := rfl
    rcases ih _ e he with h | ⟨hf, hk, hn⟩
    · by_cases hm : poemIdVal r ∈ init.map (fun entry => entry.1)
      · rw [if_pos hm] at h
        exact Or.inl h
      · rw [if_neg hm] at h
        rcases List.mem_append.1 h with h | h
        · exact Or.inl h
        · have e' : e = (poemIdVal r, poemItem r) := by simpa using h
          subst e'
          exact Or.inr ⟨by simp [hid], rfl, hm⟩
    · by_cases hm : poemIdVal r ∈ init.map (fun entry => entry.1)
      · rw [if_pos hm] at hn
        have hne : poemIdVal r ≠ e.1 := fun x => hn (x ▸ hm)
        exact Or.inr ⟨by simp [List.find?_cons, hid, hne, hf], hk, hn⟩
      · rw [if_neg hm] at hn
        have hne : poemIdVal r ≠ e.1 := by
          intro x
          apply hn
          simp [← x]
        refine Or.inr ⟨by simp [List.find?_cons, hid, hne, hf], hk, ?_⟩
        intro h
        apply hn
        simp only [List.map_append, List.mem_append]
        exact Or.inl h

theorem primaryPoems_ids (records : List (Option RawNode)) :
    (primaryPoems records).map (fun p => p.id) = keepFirsts (records.map poemIdVal) := by
  have hk := foldl_seenStep_keys records []
  simp only [List.map_nil, List.nil_append, List.not_mem_nil, not_false_eq_true, decide_True,
    List.filter_true] at hk
  rw [← hk, primaryPoems, List.map_map]
  apply List.map_congr_left
  intro e he
  rcases foldl_seenStep_first records [] e he with h | ⟨_, h, _⟩
  · simp at h
  · exact h

/-- C15: for every list of poem rows of the primary query, the ids of `poems`
are pairwise different (`null` counting as an id), each record of `poems` is
the item of the first row that has its id, the ids come in first-appearance
order, and `metadata.count` is the length of `poems`. -/
theorem C15_poems_deduplicated_by_id (records : List (Option RawNode)) (dir : FallbackDir)
    (queryLimit querySkip : Option String) :
    ((primaryPoems records).map (fun p => p.id)).Nodup ∧
    (∀ p ∈ primaryPoems records,
      (records.map poemItem).find? (fun c => decide (c.id = p.id)) = some p) ∧
    (primaryPoems records).map (fun p => p.id) = keepFirsts (records.map poemIdVal) ∧
    poemsHandler (some records) dir queryLimit querySkip =
      .primary (primaryPoems records) (primaryPoems records).length
        (poemsLimit queryLimit) (poemsSkip querySkip) := by
  refine ⟨?_, ?_, primaryPoems_ids records, rfl⟩
  · rw [primaryPoems_ids]
    exact keepFirsts_nodup _
  · intro p hp
    obtain ⟨e, he, rfl⟩ := List.mem_map.1 hp
    rcases foldl_seenStep_first records [] e he with h | ⟨hf, hk, _⟩
    · simp at h
    · rw [hk]
      exact hf

/-- C15, on four rows: identity 1, none, 1 again, none again. -/
theorem C15_witness :
    (primaryPoems [poemRow, anonPoemX, poemRow, anonPoemY]).map (fun p => p.id) =
      [some 1, none] ∧
    ([poemRow, anonPoemX, poemRow, anonPoemY].map poemItem).find?
      (fun c => decide (c.id = (poemItem anonPoemX).id)) = some (poemItem anonPoemX) :=
  ⟨by decide,
    (C15_poems_deduplicated_by_id [poemRow, anonPoemX, poemRow, anonPoemY] .absent none none).2.1
      (poemItem anonPoemX) (by decide)⟩

/-- C16 fails as stated: two rows without identity, titled "X" and "Y", both
get the id `null`, and only the first of them is in `poems`. -/
theorem C16_counterexample :
    poemIdVal anonPoemX = none ∧ poemIdVal anonPoemY = none ∧
    primaryPoems [anonPoemX, anonPoemY] = [poemItem anonPoemX] ∧
    (primaryPoems [anonPoemX, anonPoemY]).length = 1 ∧
    poemItem anonPoemY ∉ primaryPoems [anonPoemX, anonPoemY] := by
  refine ⟨rfl, rfl, by decide, by decide, by decide⟩

theorem length_filter_id_of_nodup (l : List PoemItem) (k : Option Int) :
    (l.map (fun p => p.id)).Nodup →
      (l.filter (fun p => decide (p.id = k))).length =
        (if k ∈ l.map (fun p => p.id) then 1 else 0) := by
  induction l with
  | nil => intro _; simp
  | cons p ps ih =>
    intro hnd
    rw [List.map_cons, List.nodup_cons] at hnd
    have h := ih hnd.2
    by_cases e : p.id = k
    · have hk : k ∉ ps.map (fun p => p.id) := e ▸ hnd.1
      rw [if_neg hk] at h
      simp [List.filter_cons, e, h]
    · have hmem : k ∈ (p :: ps).map (fun p => p.id) ↔ k ∈ ps.map (fun p => p.id) := by
        simp [Ne.symm e]
      simp only [List.filter_cons, e, decide_False, Bool.false_eq_true, if_false, h, hmem]

/-- C16 as amended: rows without identity all get the id `null` and are
deduplicated against each other like rows of any other id: whatever their
number, `poems` holds exactly one record with id `null` when there is such a
row, the item of the first of them, and none otherwise. -/
theorem C16_null_ids_deduplicated (records : List (Option RawNode)) :
    ((primaryPoems records).filter (fun p => decide (p.id = none))).length =
      (if none ∈ records.map poemIdVal then 1 else 0) ∧
    (primaryPoems records).filter (fun p => decide (p.id = none)) =
      ((records.map poemItem).find? (fun c => decide (c.id = none))).toList := by
  have hnd : ((primaryPoems records).map (fun p => p.id)).Nodup := by
    rw [primaryPoems_ids]
    exact keepFirsts_nodup _
  have hlen : ((primaryPoems records).filter (fun p => decide (p.id = none))).length =
      (if none ∈ records.map poemIdVal then 1 else 0) := by
    rw [length_filter_id_of_nodup _ _ hnd, primaryPoems_ids]
    simp only [mem_keepFirsts]
  refine ⟨hlen, ?_⟩
  have hfirst : ∀ p ∈ primaryPoems records, p.id = none →
      (records.map poemItem).find? (fun c => decide (c.id = none)) = some p := by
    intro p hp hid
    obtain ⟨e, he, rfl⟩ := List.mem_map.1 hp
    rcases foldl_seenStep_first records [] e he with h | ⟨hf, hk, _⟩
    · simp at h
    · rw [← hid, hk]
      exact hf
  by_cases h : none ∈ records.map poemIdVal
  · rw [if_pos h] at hlen
    obtain ⟨p, hp⟩ := List.length_eq_one.1 hlen
    have hpm : p ∈ (primaryPoems records).filter (fun p => decide (p.id = none)) := by
      rw [hp]
      exact List.mem_singleton_self p
    have hpm2 := List.mem_filter.1 hpm
    rw [hp, hfirst p hpm2.1 (by simpa using hpm2.2)]
    rfl
  · rw [if_neg h] at hlen
    have hnil := List.eq_nil_of_length_eq_zero hlen
    rw [hnil]
    have : (records.map poemItem).find? (fun c => decide (c.id = none)) = none := by
      rw [List.find?_eq_none]
      intro c hc hcid
      obtain ⟨r, hr, rfl⟩ := List.mem_map.1 hc
      apply h
      exact List.mem_map.2 ⟨r, hr, by simpa using hcid⟩
    rw [this]
    rfl

/-! ## `/poems`: the fields of a record -/

theorem or_eq_firstNonEmpty1 (a d : JSVal) : a.or d = firstNonEmpty [a] d := by
  unfold JSVal.or firstNonEmpty
  by_cases ha : a.truthy = true <;> simp [List.find?_cons, ha]

theorem or_eq_firstNonEmpty2 (a b d : JSVal) : (a.or b).or d = firstNonEmpty [a, b] d := by
  unfold JSVal.or firstNonEmpty
  by_cases ha : a.truthy = true <;> by_cases hb : b.truthy = true <;>
    simp [List.find?_cons, ha, hb]

theorem or_eq_firstNonEmpty3 (a b c d : JSVal) :
    ((a.or b).or c).or d = firstNonEmpty [a, b, c] d := by
  unfold JSVal.or firstNonEmpty
  by_cases ha : a.truthy = true <;> by_cases hb : b.truthy = true <;>
    by_cases hc : c.truthy = true <;> simp [List.find?_cons, ha, hb, hc]

/-- C17: for every poem node of the primary path, `text` is the first
non-empty (truthy) of the properties text, content, body, else the empty
string; `title` the first of title, name; `author` the first of author, name;
`dynasty` and `time` default to the empty string, `image` to `null`; and
`properties` is the property mapping of the node as it came (`{}` when the
node or its mapping is missing). -/
theorem C17_poem_item_fields (poemNode : Option RawNode) (raw : RawNode) (props : Props) :
    (poemItem poemNode).text =
      firstNonEmpty [(poemProps poemNode).get "text", (poemProps poemNode).get "content",
        (poemProps poemNode).get "body"] (.str "") ∧
    (poemItem poemNode).title =
      firstNonEmpty [(poemProps poemNode).get "title", (poemProps poemNode).get "name"]
        (.str "") ∧
    (poemItem poemNode).author =
      firstNonEmpty [(poemProps poemNode).get "author", (poemProps poemNode).get "name"]
        (.str "") ∧
    (poemItem poemNode).dynasty = firstNonEmpty [(poemProps poemNode).get "dynasty"] (.str "") ∧
    (poemItem poemNode).time = firstNonEmpty [(poemProps poemNode).get "time"] (.str "") ∧
    (poemItem poemNode).image = firstNonEmpty [(poemProps poemNode).get "image"] .null ∧
    (poemItem poemNode).properties = poemProps poemNode ∧
    poemProps (some { raw with properties := some props }) = props ∧
    poemProps (some { raw with properties := none }) = [] ∧
    poemProps none = [] := by
  refine ⟨?_, ?_, ?_, ?_, ?_, ?_, rfl, rfl, rfl, rfl⟩
  · exact or_eq_firstNonEmpty3 _ _ _ _
  · exact or_eq_firstNonEmpty2 _ _ _
  · exact or_eq_firstNonEmpty2 _ _ _
  · exact or_eq_firstNonEmpty1 _ _
  · exact or_eq_firstNonEmpty1 _ _
  · exact or_eq_firstNonEmpty1 _ _

theorem poemProps_poemNodeOf (props : Props) : poemProps (poemNodeOf props) = props := rfl

/-- C18 fails as stated: for the properties of the sample JSON record (a
`poet`, a `text` "A" and a `content` "B") the primary mapping gives the text
"A", no author and the time "", the fallback mapping the text "B" and the
author "Li Bai". -/
theorem C18_counterexample :
    jsonPoem = .object jsonPoemMembers ∧
    (poemItem (poemNodeOf jsonPoemMembers)).text = .str "A" ∧
    (fallbackItem jsonPoem).map (fun p => p.text) = some (.str "B") ∧
    (poemItem (poemNodeOf jsonPoemMembers)).author = .str "" ∧
    (fallbackItem jsonPoem).map (fun p => p.author) = some (.str "Li Bai") := by
  refine ⟨rfl, by decide, by decide, by decide, by decide⟩

/-- C18 as amended: for every property bag the fallback mapping gives the
same `title`, `dynasty` and `image` as the primary mapping; its `author` is
the first non-empty of author, poet (the primary: author, name) and its `text`
the first non-empty of content, text, body (the primary: text, content, body),
which agree with the primary fields when `poet` and `name` are both empty and
when `text` or `content` is empty; it has a `poet` field and no `time`. -/
theorem C18_fallback_priorities (props : Props) :
    ∃ poem : FallbackPoem, fallbackItem (.object props) = some poem ∧
      poem.title = (poemItem (poemNodeOf props)).title ∧
      poem.dynasty = (poemItem (poemNodeOf props)).dynasty ∧
      poem.image = (poemItem (poemNodeOf props)).image ∧
      poem.author = firstNonEmpty [props.get "author", props.get "poet"] (.str "") ∧
      poem.poet = firstNonEmpty [props.get "author", props.get "poet"] (.str "") ∧
      poem.text = firstNonEmpty [props.get "content", props.get "text", props.get "body"]
        (.str "") ∧
      ((props.get "poet").truthy = false → (props.get "name").truthy = false →
        poem.author = (poemItem (poemNodeOf props)).author) ∧
      ((props.get "text").truthy = false ∨ (props.get "content").truthy = false →
        poem.text = (poemItem (poemNodeOf props)).text) := by
  refine ⟨_, rfl, rfl, rfl, rfl, ?_, ?_, ?_, ?_, ?_⟩
  · simp only [JsonItem.get, JSVal.or, firstNonEmpty]
    by_cases ha : (Props.get props "author").truthy = true <;>
      by_cases hb : (Props.get props "poet").truthy = true <;>
      simp [List.find?_cons, ha, hb]
  · exact or_eq_firstNonEmpty2 _ _ _
  · exact or_eq_firstNonEmpty3 _ _ _ _
  · intro hp hn
    simp only [JsonItem.get, poemItem, poemProps_poemNodeOf, JSVal.or, hp, hn]
    by_cases ha : (Props.get props "author").truthy = true <;> simp [ha, hp, hn]
  · intro h
    simp only [JsonItem.get, poemItem, poemProps_poemNodeOf, JSVal.or]
    rcases h with h | h
    · by_cases hc : (Props.get props "content").truthy = true <;> simp [h, hc]
    · by_cases ht : (Props.get props "text").truthy = true <;> simp [h, ht]

/-- C18 as amended, on a record that has a title and a content only. -/
theorem C18_witness :
    (fallbackItem (.object [("title", .str "T9"), ("content", .str "B")])).map
        (fun p => (p.title, p.author, p.text)) =
      some ((poemItem (poemNodeOf [("title", .str "T9"), ("content", .str "B")])).title,
        (poemItem (poemNodeOf [("title", .str "T9"), ("content", .str "B")])).author,
        (poemItem (poemNodeOf [("title", .str "T9"), ("content", .str "B")])).text) := by
  obtain ⟨poem, hp, ht, _, _, _, _, _, ha, hx⟩ :=
    C18_fallback_priorities [("title", .str "T9"), ("content", .str "B")]
  rw [hp, Option.map_some', ht, ha (by decide) (by decide), hx (Or.inl (by decide))]

/-- C19 fails as stated: the sample JSON record carries `id: 7` and its
fallback record has the id 7, not `null`. -/
theorem C19_counterexample :
    (fallbackItem jsonPoem).map (fun p => p.id) = some (.num (.fin 7)) ∧
    (fallbackItem jsonPoem).map (fun p => p.id) ≠ some .null ∧
    (fallbackItem (.object [("_id", .str "a1")])).map (fun p => p.id) = some (.str "a1") := by
  refine ⟨by decide, by decide, by decide⟩

/-- C19 as amended: the id of a fallback record is the `id` member of the
JSON record when it is non-empty (truthy), else its `_id` member when that is
non-empty, else `null`; so it is `null` when the record carries neither. -/
theorem C19_fallback_id (item : JsonItem) (poem : FallbackPoem)
    (h : fallbackItem item = some poem) :
    poem.id = firstNonEmpty [item.get "id", item.get "_id"] .null ∧
    ((item.get "id").truthy = false → (item.get "_id").truthy = false → poem.id = .null) := by
  have hid : poem.id = ((item.get "id").or (item.get "_id")).or .null := by
    cases item with
    | null => simp [fallbackItem] at h
    | object members =>
      simp only [fallbackItem, Option.some.injEq] at h
      rw [← h]
    | other v =>
      simp only [fallbackItem, Option.some.injEq] at h
      rw [← h]
  refine ⟨by rw [hid]; exact or_eq_firstNonEmpty2 _ _ _, ?_⟩
  intro h1 h2
  rw [hid]
  simp [JSVal.or, h1, h2]

/-- C19 as amended, on a record with a title only. -/
theorem C19_witness :
    ∃ poem : FallbackPoem, fallbackItem jsonTitleOnly = some poem ∧ poem.id = .null :=
  ⟨_, rfl, (C19_fallback_id jsonTitleOnly _ rfl).2 (by decide) (by decide)⟩

/-! ## `/poems`: the fallback response -/

theorem mem_pushItems (items : List JsonItem) :
    ∀ (acc : List FallbackPoem) (p : FallbackPoem), p ∈ pushItems acc items →
      p ∈ acc ∨ ∃ item ∈ items, fallbackItem item = some p := by
  induction items with
  | nil => intro acc p h; exact Or.inl h
  | cons item rest ih =>
    intro acc p h
    unfold pushItems at h
    cases hi : fallbackItem item with
    | none =>
      rw [hi] at h
      exact Or.inl h
    | some poem =>
      rw [hi] at h
      rcases ih _ p h with h1 | ⟨it, hit, hp⟩
      · rcases List.mem_append.1 h1 with h2 | h2
        · exact Or.inl h2
        · have e : p = poem := by simpa using h2
          exact Or.inr ⟨item, List.mem_cons_self _ _, by rw [hi, e]⟩
      · exact Or.inr ⟨it, List.mem_cons_of_mem _ hit, hp⟩

theorem mem_foldl_scanFile (fs : List DirFile) :
    ∀ (acc : List FallbackPoem) (p : FallbackPoem), p ∈ fs.foldl scanFile acc →
      p ∈ acc ∨ ∃ f ∈ fs, ∃ items, f.parsed = .array items ∧
        ∃ item ∈ items, fallbackItem item = some p := by
  induction fs with
  | nil => intro acc p h; exact Or.inl h
  | cons f rest ih =>
    intro acc p h
    rw [List.foldl_cons] at h
    rcases ih _ p h with h1 | ⟨g, hg, items, hpar, hitem⟩
    · unfold scanFile at h1
      cases hpar : f.parsed with
      | failed => rw [hpar] at h1; exact Or.inl h1
      | notArray => rw [hpar] at h1; exact Or.inl h1
      | array items =>
        rw [hpar] at h1
        rcases mem_pushItems items acc p h1 with h2 | h2
        · exact Or.inl h2
        · exact Or.inr ⟨f, List.mem_cons_self _ _, items, hpar, h2⟩
    · exact Or.inr ⟨g, List.mem_cons_of_mem _ hg, items, hpar, hitem⟩

theorem sliceEnd_natCast (len n : Nat) : sliceEnd len (.fin (n : ℚ)) = min n len := by
  have h0 : (0 : ℚ) ≤ (n : ℚ) := Nat.cast_nonneg n
  have hf : Rat.floor (n : ℚ) = (n : Int) := by
    rw [← Int.cast_natCast, floor_intCast]
  simp [sliceEnd, h0, hf]

/-- C20 fails as stated: with the primary query failing and a fallback
directory that yields 2 records, the request `limit=0` gets a success whose
`poems` array is empty. -/
theorem C20_counterexample :
    (fallbackPoems sampleDir).map List.length = some 2 ∧
    poemsLimit (some "0") = .fin 0 ∧
    poemsHandler none sampleDir (some "0") none = .fallback [] 2 ∧
    poemsHandler none sampleDir (some "-4") (some "1") = .fallback [] 2 := by
  refine ⟨by decide, by decide, by decide, by decide⟩

/-- C20 as amended: when the primary query fails and the fallback scan yields
at least one record, the response is, for every limit and skip input, the
success `{poems, metadata: {fallback: true, count}}` with `count` at least 1
and `poems` the first `limit` of the scanned records, each the mapped
equivalent of an item of an array file of the directory; `poems` is non-empty
exactly when the effective limit is not 0. -/
theorem C20_fallback_response (dir : FallbackDir) (found : List FallbackPoem)
    (queryLimit querySkip : Option String)
    (hf : fallbackPoems dir = some found) (hne : found ≠ []) :
    poemsHandler none dir queryLimit querySkip =
      .fallback (sliceTo found (poemsLimit queryLimit)) found.length ∧
    0 < found.length ∧
    sliceTo found (poemsLimit queryLimit) <+: found ∧
    (sliceTo found (poemsLimit queryLimit) ≠ [] ↔ poemsLimit queryLimit ≠ .fin 0) ∧
    (∃ entries : List DirFile, dir = .present entries ∧
      ∀ p ∈ found, ∃ f ∈ entries, isJsonName f.name = true ∧
        ∃ items, f.parsed = .array items ∧ ∃ item ∈ items, fallbackItem item = some p) := by
  have hlen : 0 < found.length := List.length_pos.2 hne
  refine ⟨?_, hlen, ?_, ?_, ?_⟩
  · simp [poemsHandler, hf, hlen]
  · exact List.take_prefix _ _
  · rcases poemsLimit_cases queryLimit with h | ⟨n, h⟩
    · rw [h]
      simp [sliceTo, sliceEnd, hne]
    · rw [h]
      simp only [sliceTo, sliceEnd_natCast, ne_eq, List.take_eq_nil_iff, JSNum.fin.injEq,
        Nat.cast_eq_zero]
      constructor
      · intro hx hn
        apply hx
        left
        simp [hn]
      · intro hn hx
        rcases hx with hx | hx
        · have : n = 0 ∨ found.length = 0 := by omega
          rcases this with h1 | h1
          · exact hn h1
          · omega
        · exact hne hx
  · cases dir with
    | absent =>
      simp only [fallbackPoems, Option.some.injEq] at hf
      exact absurd hf.symm hne
    | unreadable => simp [fallbackPoems] at hf
    | present entries =>
      refine ⟨entries, rfl, ?_⟩
      intro p hp
      simp only [fallbackPoems, Option.some.injEq] at hf
      rw [← hf] at hp
      rcases mem_foldl_scanFile _ [] p hp with h | ⟨f, hfm, items, hpar, hitem⟩
      · simp at h
      · have hfm2 := List.mem_filter.1 hfm
        exact ⟨f, hfm2.1, hfm2.2, items, hpar, hitem⟩

/-- C20 as amended, on the sample directory with `limit=1` and `skip=5`. -/
theorem C20_witness :
    poemsHandler none sampleDir (some "1") (some "5") =
      .fallback
        (sliceTo
          [{ id := .num (.fin 7), author := .str "Li Bai", title := .str "T7", text := .str "B",
             poet := .str "Li Bai", dynasty := .str "", image := .null, properties := jsonPoem },
           { id := .null, author := .str "", title := .str "T8", text := .str "",
             poet := .str "", dynasty := .str "", image := .null,
             properties := jsonTitleOnly }]
          (poemsLimit (some "1"))) 2 :=
  (C20_fallback_response sampleDir _ (some "1") (some "5") (by decide) (by decide)).1

/-! ## `/poems`: the fallback scan and its response -/

/-- C21: when the primary query fails and the fallback directory is absent,
cannot be listed or yields no record, the response is the error 500 'Failed to
fetch poems' for every limit and skip; it is never a success, so never a
success with an empty `poems`. -/
theorem C21_no_fallback_record_is_error (dir : FallbackDir)
    (queryLimit querySkip : Option String)
    (h : fallbackPoems dir = none ∨ fallbackPoems dir = some []) :
    poemsHandler none dir queryLimit querySkip = .error 500 "Failed to fetch poems" ∧
    fallbackPoems .absent = some [] ∧
    fallbackPoems .unreadable = none := by
  refine ⟨?_, rfl, rfl⟩
  rcases h with h | h <;> simp [poemsHandler, h]

/-- C21, on an absent directory and on a directory whose only JSON file fails
to parse. -/
theorem C21_witness :
    poemsHandler none .absent (some "10") none = .error 500 "Failed to fetch poems" ∧
    poemsHandler none brokenDir none (some "3") = .error 500 "Failed to fetch poems" :=
  ⟨(C21_no_fallback_record_is_error .absent (some "10") none (Or.inr rfl)).1,
    (C21_no_fallback_record_is_error brokenDir none (some "3") (Or.inr (by decide))).1⟩

theorem pushItems_append (items : List JsonItem) :
    ∀ acc : List FallbackPoem, pushItems acc items = acc ++ pushItems [] items := by
  induction items with
  | nil => intro acc; simp [pushItems]
  | cons item rest ih =>
    intro acc
    unfold pushItems
    cases fallbackItem item with
    | none => simp
    | some poem =>
      simp only []
      rw [ih (acc ++ [poem]), ih ([] ++ [poem])]
      simp

theorem scanFile_append (acc : List FallbackPoem) (f : DirFile) :
    scanFile acc f = acc ++ fileRecords f := by
  unfold fileRecords scanFile
  cases f.parsed with
  | failed => simp
  | notArray => simp
  | array items => simpa using pushItems_append items acc

theorem foldl_scanFile_eq (fs : List DirFile) :
    ∀ acc : List FallbackPoem, fs.foldl scanFile acc = acc ++ fs.flatMap fileRecords := by
  induction fs with
  | nil => intro acc; simp
  | cons f rest ih =>
    intro acc
    rw [List.foldl_cons, ih, scanFile_append, List.flatMap_cons, List.append_assoc]

theorem pushItems_of_no_null (items : List JsonItem) (h : JsonItem.null ∉ items) :
    pushItems [] items = items.filterMap fallbackItem ∧
    (pushItems [] items).length = items.length := by
  induction items with
  | nil => simp [pushItems]
  | cons item rest ih =>
    have hr : JsonItem.null ∉ rest := fun x => h (List.mem_cons_of_mem _ x)
    have hi : item ≠ JsonItem.null := fun x => h (by simp [x])
    obtain ⟨poem, hp⟩ : ∃ poem, fallbackItem item = some poem := by
      cases item with
      | null => exact absurd rfl hi
      | object members => exact ⟨_, rfl⟩
      | other v => exact ⟨_, rfl⟩
    have h1 := ih hr
    unfold pushItems
    rw [hp]
    simp only []
    rw [pushItems_append rest ([] ++ [poem]), List.filterMap_cons, hp, h1.1]
    refine ⟨by simp, ?_⟩
    simp only [List.nil_append, List.singleton_append, List.length_cons]
    rw [← h1.1, h1.2]

/-- C22 fails as stated: the file `a.json` parses as the array of a record, a
`null` and a second record; reading `item.id` on the `null` throws, the `catch`
of the file ends its loop, and the second record is never collected although
it can be mapped. The record before the `null` stays and the scan goes on with
`b.json`. -/
theorem C22_counterexample :
    fallbackPoems (.present nullItemDir) =
      some ([jsonTitleOnly].filterMap fallbackItem ++ [jsonTitleOnly].filterMap fallbackItem) ∧
    (fallbackItem jsonPoem).isSome = true ∧
    fallbackItem jsonPoem ∉ ((fallbackPoems (.present nullItemDir)).getD []).map some ∧
    fallbackPoems (.present nullItemDir) ≠
      some ([jsonTitleOnly, jsonPoem].filterMap fallbackItem ++
        [jsonTitleOnly].filterMap fallbackItem) := by
  refine ⟨by decide, by decide, by decide, by decide⟩

/-- C22 as amended: the scan collects, file after file in directory order,
what each JSON-named file adds: nothing for a file that fails to read or parse
or whose JSON is not an array, and for an array file none of whose items is
`null` the mapped records of all its items in item order; what a file adds
does not depend on the other files. -/
theorem C22_scan_skips_malformed_files (entries : List DirFile) :
    fallbackPoems (.present entries) =
      some ((entries.filter (fun f => isJsonName f.name)).flatMap fileRecords) ∧
    (∀ f : DirFile, f.parsed = .failed ∨ f.parsed = .notArray → fileRecords f = []) ∧
    (∀ (f : DirFile) (items : List JsonItem), f.parsed = .array items → JsonItem.null ∉ items →
      fileRecords f = items.filterMap fallbackItem ∧ (fileRecords f).length = items.length) := by
  refine ⟨?_, ?_, ?_⟩
  · simp [fallbackPoems, foldl_scanFile_eq]
  · rintro f (h | h) <;> simp [fileRecords, scanFile, h]
  · intro f items h hn
    have := pushItems_of_no_null items hn
    simpa [fileRecords, scanFile, h] using this

/-- C22 as amended, on a directory where a file that fails and a file that is
not an array surround two array files: the three records of the array files are
collected in order. -/
theorem C22_witness :
    fallbackPoems (.present mixedDir) =
      some ([jsonPoem].filterMap fallbackItem ++
        [jsonTitleOnly, jsonPoem].filterMap fallbackItem) := by
  have h := C22_scan_skips_malformed_files mixedDir
  have h1 := (h.2.2 { name := "b.json", parsed := .array [jsonPoem] } [jsonPoem] rfl
    (by decide)).1
  have h2 := (h.2.2 { name := "d.json", parsed := .array [jsonTitleOnly, jsonPoem] }
    [jsonTitleOnly, jsonPoem] rfl (by decide)).1
  have h3 := h.2.1 { name := "a.json", parsed := .failed } (Or.inl rfl)
  have h4 := h.2.1 { name := "c.json", parsed := .notArray } (Or.inr rfl)
  rw [h.1, ← h1, ← h2]
  have hf : mixedDir.filter (fun f => isJsonName f.name) = mixedDir := by decide
  rw [hf]
  simp only [mixedDir, List.flatMap_cons, List.flatMap_nil, h3, h4, List.nil_append,
    List.append_nil]

/-- The expression of line 386 is an integer between 1 and 200 for every
limit input: 20 when the input is missing or `parseInt` reads no number or
reads 0, the parsed integer when it lies in 1..200, 1 when it is negative and
200 when it exceeds 200. -/
theorem poemsRawLimit_clamped (queryLimit : Option String) :
    (1 ≤ poemsRawLimit queryLimit ∧ poemsRawLimit queryLimit ≤ 200) ∧
    poemsRawLimit none = 20 ∧
    (parseIntQuery queryLimit = none ∨ parseIntQuery queryLimit = some 0 →
      poemsRawLimit queryLimit = 20) ∧
    (∀ n : Int, parseIntQuery queryLimit = some n → 1 ≤ n → n ≤ 200 →
      poemsRawLimit queryLimit = n) ∧
    (∀ n : Int, parseIntQuery queryLimit = some n → n < 0 → poemsRawLimit queryLimit = 1) ∧
    (∀ n : Int, parseIntQuery queryLimit = some n → 200 < n →
      poemsRawLimit queryLimit = 200) := by
  refine ⟨?_, by decide, ?_, ?_, ?_, ?_⟩
  · unfold poemsRawLimit
    constructor
    · exact le_max_left _ _
    · exact max_le (by norm_num) (min_le_left _ _)
  · rintro (h | h) <;> simp [poemsRawLimit, orDefault, h]
  · intro n h h1 h2
    have h0 : n ≠ 0 := by omega
    simp only [poemsRawLimit, orDefault, h, h0, ne_eq, not_false_eq_true, if_true]
    rw [min_eq_right h2, max_eq_right h1]
  · intro n h h1
    have h0 : n ≠ 0 := by omega
    simp only [poemsRawLimit, orDefault, h, h0, ne_eq, not_false_eq_true, if_true]
    rw [min_eq_right (by omega), max_eq_left (by omega)]
  · intro n h h1
    have h0 : n ≠ 0 := by omega
    simp only [poemsRawLimit, orDefault, h, h0, ne_eq, not_false_eq_true, if_true]
    rw [min_eq_left (by omega), max_eq_right (by norm_num)]

/-- The expression of line 386 on the inputs "abc", "0", "57", "-4" and "1000". -/
theorem poemsRawLimit_examples :
    poemsRawLimit (some "abc") = 20 ∧ poemsRawLimit (some "0") = 20 ∧
    poemsRawLimit (some "57") = 57 ∧ poemsRawLimit (some "-4") = 1 ∧
    poemsRawLimit (some "1000") = 200 :=
  ⟨(poemsRawLimit_clamped (some "abc")).2.2.1 (Or.inl (by decide)),
    (poemsRawLimit_clamped (some "0")).2.2.1 (Or.inr (by decide)),
    (poemsRawLimit_clamped (some "57")).2.2.2.1 57 (by decide) (by decide) (by decide),
    (poemsRawLimit_clamped (some "-4")).2.2.2.2.1 (-4) (by decide) (by decide),
    (poemsRawLimit_clamped (some "1000")).2.2.2.2.2 1000 (by decide) (by decide)⟩

/-- Every `GET` request is answered by a layer registered before the route
`/poems/raw`. -/
theorem dispatch_appLayers (path : List String) :
    dispatch appLayers path = some .knowledgeGraph ∨
    dispatch appLayers path = some .nodeCentered ∨
    dispatch appLayers path = some .poems ∨
    dispatch appLayers path = some .health ∨
    dispatch appLayers path = some .stats ∨
    dispatch appLayers path = some .notFound := by
  simp only [dispatch, appLayers, List.findSome?, Layer.answers]
  by_cases h1 : pathMatches [.name "knowledgeGraph"] path = true
  · simp [h1]
  · by_cases h2 : pathMatches [.name "knowledgeGraph", .name "node", .param] path = true
    · simp [h1, h2]
    · by_cases h3 : pathMatches [.name "poems"] path = true
      · simp [h1, h2, h3]
      · by_cases h4 : pathMatches [.name "health"] path = true
        · simp [h1, h2, h3, h4]
        · by_cases h5 : pathMatches [.name "stats"] path = true
          · simp [h1, h2, h3, h4, h5]
          · simp [h1, h2, h3, h4, h5]

/-- C23 fails on the request `/poems/raw?limit=57`: the route `/poems/raw` is
registered after the middleware that answers every request with 404, so the
request is answered by that middleware with "Sorry can't find that!"; no
request reaches the handler of `/poems/raw`, and the limit 57 its first
statement would give is never computed. -/
theorem C23_raw_route_is_never_reached :
    dispatch appLayers ["poems", "raw"] = some .notFound ∧
    notFoundResponse = (404, "Sorry can't find that!") ∧
    appLayers.indexOf (.use .notFound) <
      appLayers.indexOf (.get [.name "poems", .name "raw"] .poemsRaw) ∧
    (∀ path : List String, dispatch appLayers path ≠ some .poemsRaw) ∧
    dispatch [.get [.name "poems", .name "raw"] .poemsRaw, .use .notFound] ["poems", "raw"] =
      some .poemsRaw ∧
    poemsRawLimit (some "57") = 57 := by
  refine ⟨by decide, rfl, by decide, ?_, by decide, by decide⟩
  intro path h
  rcases dispatch_appLayers path with e | e | e | e | e | e <;>
    · rw [e] at h
      cases h

/-! ## The node-centered endpoint: links -/

theorem processRelRecord_eq (links : List GraphLink) (raw : RawPathRel) :
    processRelRecord links raw = links ++ (relLink raw).toList := by
  unfold relLink processRelRecord
  by_cases h : relEndId raw.start ≠ .null ∧ relEndId raw.«end» ≠ .null
  · simp [h]
  · simp [h]

theorem centeredLinks_eq (recs : List RawPathRel) :
    centeredLinks recs = recs.filterMap relLink := by
  have h : ∀ (rs : List RawPathRel) (acc : List GraphLink),
      rs.foldl processRelRecord acc = acc ++ rs.filterMap relLink := by
    intro rs
    induction rs with
    | nil => intro acc; simp
    | cons r rest ih =>
      intro acc
      rw [List.foldl_cons, ih, processRelRecord_eq]
      cases hr : relLink r with
      | none => simp [List.filterMap_cons, hr]
      | some l => simp [List.filterMap_cons, hr]
  simpa [centeredLinks] using h recs []

theorem relLink_of_integers (raw : RawPathRel) (s e : Int)
    (hs : raw.start = .integer s) (he : raw.«end» = .integer e) :
    relLink raw = some { source := JSVal.ofInt s, target := JSVal.ofInt e, type := raw.type } := by
  simp [relLink, processRelRecord, relEndId, hs, he, JSVal.ofInt]

/-- C24 fails as stated: with `limit=1` answered by one node (identity 1) and
one relationship (from 1 to 2), the response has the link 1 -> 2 while no node
of its `nodes` array has the id 2. -/
theorem C24_counterexample :
    nodeCenteredHandler truncatingDb "1" none (some "1") =
      { response := .ok [centeredNode poetA]
          [{ source := JSVal.ofInt 1, target := JSVal.ofInt 2, type := "WROTE" }]
          "与节点 1（深度 1）相关的子图" 1 1
        calls :=
          [{ text := existsQuery, nodeId := 1, limit := none },
           { text := nodesQuery 1, nodeId := 1, limit := some 1 },
           { text := relsQuery 1, nodeId := 1, limit := some 1 }] } ∧
    JSVal.ofInt 2 ∉ [centeredNode poetA].map (fun n => n.id) := by
  refine ⟨by decide, by decide⟩

/-- C24 as amended: the links are built from the relationship query alone and
are not checked against `nodes`; the source (target) of a link is the id of a
node of the same response whenever the node query returned a node with that
id. -/
theorem C24_endpoint_present_if_returned (nodeRecords : List RawNode)
    (relRecords : List RawPathRel) :
    ∀ l ∈ centeredLinks relRecords,
      ((∃ raw ∈ nodeRecords, idVal raw = l.source) →
        ∃ a ∈ centeredNodes nodeRecords, a.id = l.source) ∧
      ((∃ raw ∈ nodeRecords, idVal raw = l.target) →
        ∃ b ∈ centeredNodes nodeRecords, b.id = l.target) := by
  intro l _
  have key : ∀ v : JSVal, (∃ raw ∈ nodeRecords, idVal raw = v) →
      ∃ a ∈ centeredNodes nodeRecords, a.id = v := by
    rintro v ⟨raw, hraw, rfl⟩
    have hm : idVal raw ∈ (centeredNodes nodeRecords).map (fun n => n.id) := by
      rw [centeredNodes_ids]
      exact mem_removeLaterRepeats _ _ (List.mem_map.2 ⟨raw, hraw, rfl⟩)
    obtain ⟨a, ha, e⟩ := List.mem_map.1 hm
    exact ⟨a, ha, e⟩
  exact ⟨key _, key _⟩

/-- C24 as amended, on the node records PoetA (1) and PoemX (2) and the
relationship from 1 to 2. -/
theorem C24_witness :
    ∃ b ∈ centeredNodes [poetA, poemX], b.id = JSVal.ofInt 2 :=
  ((C24_endpoint_present_if_returned [poetA, poemX]
      [{ type := "WROTE", start := .integer 1, «end» := .integer 2 }]
      { source := JSVal.ofInt 1, target := JSVal.ofInt 2, type := "WROTE" } (by decide)).2
    ⟨poemX, by decide, by decide⟩)

/-- C25: the links of the node-centered response are, in row order and
without deduplication, the links of the relationship rows that yield one; a
row whose start and end are identities (0 included) yields the link from the
start identity to the end identity with the row's type, a row that lacks its
start or its end yields none; and `metadata.nodeCount`, `metadata.linkCount`
are the lengths of `nodes` and `links`. -/
theorem C25_links_of_relationship_rows (db : CenteredDb) (nodeIdParam : String)
    (queryDepth queryLimit : Option String) (recs : List RawPathRel) :
    centeredLinks recs = recs.filterMap relLink ∧
    (∀ (raw : RawPathRel) (s e : Int), raw.start = .integer s → raw.«end» = .integer e →
      relLink raw =
        some { source := JSVal.ofInt s, target := JSVal.ofInt e, type := raw.type }) ∧
    ((∀ raw ∈ recs, ∃ s e : Int, raw.start = .integer s ∧ raw.«end» = .integer e) →
      centeredLinks recs = recs.map rowLink ∧ (centeredLinks recs).length = recs.length) ∧
    (∀ raw : RawPathRel,
      raw.start = .other .undefined ∨ raw.start = .other .null ∨
        raw.«end» = .other .undefined ∨ raw.«end» = .other .null →
      relLink raw = none) ∧
    (∀ (nodes : List GraphNode) (links : List GraphLink) (description : String)
        (nodeCount linkCount : Nat),
      (nodeCenteredHandler db nodeIdParam queryDepth queryLimit).response =
        .ok nodes links description nodeCount linkCount →
      nodeCount = nodes.length ∧ linkCount = links.length) := by
  refine ⟨centeredLinks_eq recs, relLink_of_integers, ?_, ?_, ?_⟩
  · intro h
    rw [centeredLinks_eq]
    have hall : recs.filterMap relLink = recs.map rowLink := by
      clear db nodeIdParam queryDepth queryLimit
      induction recs with
      | nil => rfl
      | cons r rest ih =>
        obtain ⟨s, e, hs, he⟩ := h r (List.mem_cons_self _ _)
        rw [List.filterMap_cons, relLink_of_integers r s e hs he, List.map_cons,
          ih (fun raw hraw => h raw (List.mem_cons_of_mem _ hraw))]
        simp [rowLink, relEndId, hs, he]
    rw [hall]
    exact ⟨rfl, List.length_map _ _⟩
  · rintro raw (h | h | h | h) <;>
      simp [relLink, processRelRecord, relEndId, h, JSVal.or, JSVal.truthy]
  · intro nodes links description nodeCount linkCount h
    simp only [nodeCenteredHandler] at h
    split at h
    · simp at h
    · split at h
      · simp at h
      · split at h
        · simp at h
        · split at h
          · simp at h
          · split at h
            · simp at h
            · simp only [CenteredResponse.ok.injEq] at h
              obtain ⟨h1, h2, _, h4, h5⟩ := h
              rw [← h1, ← h2, h4, h5]
              exact ⟨rfl, rfl⟩

/-- C25, on three rows: from 0 to 2, one without start, from 0 to 2 again. -/
theorem C25_witness :
    centeredLinks sampleRels =
      [{ source := JSVal.ofInt 0, target := JSVal.ofInt 2, type := "WROTE" },
       { source := JSVal.ofInt 0, target := JSVal.ofInt 2, type := "WROTE" }] ∧
    relLink { type := "WROTE", start := .integer 0, «end» := .integer 2 } =
      some { source := JSVal.ofInt 0, target := JSVal.ofInt 2, type := "WROTE" } ∧
    relLink { type := "WROTE", start := .other .undefined, «end» := .integer 2 } = none :=
  ⟨by decide,
    (C25_links_of_relationship_rows sampleDb "12" none none sampleRels).2.1
      { type := "WROTE", start := .integer 0, «end» := .integer 2 } 0 2 rfl rfl,
    (C25_links_of_relationship_rows sampleDb "12" none none sampleRels).2.2.2.1
      { type := "WROTE", start := .other .undefined, «end» := .integer 2 } (Or.inl rfl)⟩

/-- C26: in the fallback response `poems` is the first `limit` of the scanned
records (all of them when the limit is `Infinity`), so its length is the
minimum of the limit and the total; the skip input changes nothing; and
`metadata.count` is the total number of scanned records. -/
theorem C26_fallback_slice_and_count (dir : FallbackDir) (found : List FallbackPoem)
    (queryLimit querySkip otherSkip : Option String)
    (hf : fallbackPoems dir = some found) (hne : found ≠ []) :
    poemsHandler none dir queryLimit querySkip =
      .fallback (sliceTo found (poemsLimit queryLimit)) found.length ∧
    poemsHandler none dir queryLimit querySkip = poemsHandler none dir queryLimit otherSkip ∧
    (poemsLimit queryLimit = .posInf ∨ ∃ n : Nat, poemsLimit queryLimit = .fin (n : ℚ)) ∧
    (∀ n : Nat, poemsLimit queryLimit = .fin (n : ℚ) →
      sliceTo found (poemsLimit queryLimit) = found.take n ∧
      (sliceTo found (poemsLimit queryLimit)).length = min n found.length) ∧
    (poemsLimit queryLimit = .posInf → sliceTo found (poemsLimit queryLimit) = found) := by
  have hlen : 0 < found.length := List.length_pos.2 hne
  have hresp : ∀ qs : Option String, poemsHandler none dir queryLimit qs =
      .fallback (sliceTo found (poemsLimit queryLimit)) found.length := by
    intro qs
    simp [poemsHandler, hf, hlen]
  refine ⟨hresp querySkip, by rw [hresp querySkip, hresp otherSkip],
    poemsLimit_cases queryLimit, ?_, ?_⟩
  · intro n h
    rw [h]
    simp only [sliceTo, sliceEnd_natCast, List.length_take]
    refine ⟨?_, by simp⟩
    rcases Nat.le_total n found.length with hle | hle
    · rw [min_eq_left hle]
    · rw [min_eq_right hle, List.take_of_length_le (le_refl _), List.take_of_length_le hle]
  · intro h
    rw [h]
    simp [sliceTo, sliceEnd]

/-- C26, on the sample directory (2 records) with `limit=1` and two different
skips. -/
theorem C26_witness :
    poemsHandler none sampleDir (some "1") (some "0") =
      poemsHandler none sampleDir (some "1") (some "40") ∧
    poemsHandler none sampleDir (some "1") (some "0") =
      .fallback (sliceTo ([jsonPoem, jsonTitleOnly].filterMap fallbackItem)
        (poemsLimit (some "1"))) 2 :=
  ⟨(C26_fallback_slice_and_count sampleDir ([jsonPoem, jsonTitleOnly].filterMap fallbackItem)
      (some "1") (some "0") (some "40") (by decide) (by decide)).2.1,
    (C26_fallback_slice_and_count sampleDir ([jsonPoem, jsonTitleOnly].filterMap fallbackItem)
      (some "1") (some "0") (some "40") (by decide) (by decide)).1⟩

/-! ## The graph component: displayed nodes and links -/

theorem bump_getD (map : Int → Option Nat) (key k : Int) :
    (bump map key k).getD 0 = (map k).getD 0 + (if k = key then 1 else 0) := by
  unfold bump
  by_cases h : k = key
  · simp [h]
  · simp [h]

theorem foldl_bump_getD (links : List ViewLink) :
    ∀ (map : Int → Option Nat) (k : Int),
      ((links.foldl (fun map link => bump (bump map (endId link.source)) (endId link.target))
          map) k).getD 0 =
        (map k).getD 0 + (links.filter (fun l => decide (endId l.source = k))).length +
          (links.filter (fun l => decide (endId l.target = k))).length := by
  induction links with
  | nil => intro map k; simp
  | cons l rest ih =>
    intro map k
    rw [List.foldl_cons, ih, bump_getD, bump_getD]
    have e1 : (k = endId l.source) = (endId l.source = k) := propext eq_comm
    have e2 : (k = endId l.target) = (endId l.target = k) := propext eq_comm
    simp only [List.filter_cons, e1, e2, decide_eq_true_eq]
    by_cases h1 : endId l.source = k <;> by_cases h2 : endId l.target = k <;>
      simp only [h1, h2, if_true, if_false, List.length_cons] <;> omega

theorem degreeOf_eq (g : ViewGraph) (id : Int) :
    degreeOf (some g) id =
      (g.links.filter (fun l => decide (endId l.source = id))).length +
        (g.links.filter (fun l => decide (endId l.target = id))).length := by
  unfold degreeOf degreeMap
  rw [foldl_bump_getD]
  simp

theorem filter_orderedInsert (deg : ViewNode → Nat) (k : Nat) (a : ViewNode) :
    ∀ l : List ViewNode,
      (l.orderedInsert (fun x y => deg y ≤ deg x) a).filter (fun x => decide (deg x = k)) =
        (a :: l).filter (fun x => decide (deg x = k)) := by
  intro l
  induction l with
  | nil => simp
  | cons b rest ih =>
    rw [List.orderedInsert]
    by_cases h : deg b ≤ deg a
    · rw [if_pos h]
    · rw [if_neg h]
      have hlt : deg a < deg b := Nat.lt_of_not_le h
      by_cases ha : deg a = k
      · have hb : deg b ≠ k := by omega
        simp only [List.filter_cons, hb, decide_False, Bool.false_eq_true, if_false, ha,
          decide_True, if_true] at ih ⊢
        exact ih
      · by_cases hb : deg b = k
        · simp only [List.filter_cons, hb, decide_True, if_true, ha, decide_False,
            Bool.false_eq_true, if_false] at ih ⊢
          rw [ih]
        · simp only [List.filter_cons, hb, ha, decide_False, Bool.false_eq_true,
            if_false] at ih ⊢
          exact ih

theorem filter_insertionSort (deg : ViewNode → Nat) (k : Nat) (l : List ViewNode) :
    (l.insertionSort (fun x y => deg y ≤ deg x)).filter (fun x => decide (deg x = k)) =
      l.filter (fun x => decide (deg x = k)) := by
  induction l with
  | nil => rfl
  | cons a rest ih =>
    rw [List.insertionSort, filter_orderedInsert, List.filter_cons, List.filter_cons, ih]

theorem sortedNodes_sorted (g : ViewGraph) :
    (sortedNodes g).Sorted (fun a b => degreeOf (some g) b.id ≤ degreeOf (some g) a.id) := by
  haveI : IsTotal ViewNode (fun a b => degreeOf (some g) b.id ≤ degreeOf (some g) a.id) :=
    ⟨fun a b => Nat.le_total _ _⟩
  haveI : IsTrans ViewNode (fun a b => degreeOf (some g) b.id ≤ degreeOf (some g) a.id) :=
    ⟨fun _ _ _ h1 h2 => Nat.le_trans h2 h1⟩
  exact List.sorted_insertionSort _ _

/-- C27: with 'show all' off the displayed nodes are the first `nodeLimit`
nodes of the input sorted by degree, highest first, nodes of equal degree
keeping their input order; there are min(nodeLimit, number of nodes) of them,
they form a sub-collection of the input nodes, and no hidden node has a higher
degree than a displayed one. The degree of a node is the number of links with
it as source plus the number with it as target. -/
theorem C27_displayed_nodes_by_degree (g : ViewGraph) (nodeLimit : Nat) :
    (∀ id : Int, degreeOf (some g) id =
      (g.links.filter (fun l => decide (endId l.source = id))).length +
        (g.links.filter (fun l => decide (endId l.target = id))).length) ∧
    (limitedGraphData (some g) false nodeLimit).nodes = (sortedNodes g).take nodeLimit ∧
    (sortedNodes g).Perm g.nodes ∧
    (sortedNodes g).Sorted (fun a b => degreeOf (some g) b.id ≤ degreeOf (some g) a.id) ∧
    (∀ k : Nat, (sortedNodes g).filter (fun x => decide (degreeOf (some g) x.id = k)) =
      g.nodes.filter (fun x => decide (degreeOf (some g) x.id = k))) ∧
    (limitedGraphData (some g) false nodeLimit).nodes.length = min nodeLimit g.nodes.length ∧
    (limitedGraphData (some g) false nodeLimit).nodes.Subperm g.nodes ∧
    (∀ d ∈ (limitedGraphData (some g) false nodeLimit).nodes,
      ∀ h ∈ (sortedNodes g).drop nodeLimit,
        degreeOf (some g) h.id ≤ degreeOf (some g) d.id) := by
  have hn : (limitedGraphData (some g) false nodeLimit).nodes = (sortedNodes g).take nodeLimit :=
    rfl
  have hperm : (sortedNodes g).Perm g.nodes := List.perm_insertionSort _ _
  refine ⟨degreeOf_eq g, hn, hperm, sortedNodes_sorted g, ?_, ?_, ?_, ?_⟩
  · intro k
    exact filter_insertionSort (fun x => degreeOf (some g) x.id) k g.nodes
  · rw [hn, List.length_take, hperm.length_eq]
  · rw [hn]
    exact (List.take_sublist _ _).subperm.trans hperm.subperm
  · intro d hd h hh
    rw [hn] at hd
    exact (sortedNodes_sorted g).rel_of_mem_take_of_mem_drop hd hh

/-- C27, on the sample graph with `nodeLimit` 2: nodes 3 (degree 3) and 1
(degree 2) are displayed, and the hidden node 2 has degree 1. -/
theorem C27_witness :
    (limitedGraphData (some sampleView) false 2).nodes.map (fun n => n.id) = [3, 1] ∧
    degreeOf (some sampleView) 2 ≤ degreeOf (some sampleView) 1 :=
  ⟨by decide,
    (C27_displayed_nodes_by_degree sampleView 2).2.2.2.2.2.2.2
      { id := 1, label := "PoetA", type := "Poet" } (by decide)
      { id := 2, label := "PoemX", type := "Poem" } (by decide)⟩

/-- C28: with 'show all' off the displayed links are the input links, in
input order, whose source and target are both ids of displayed nodes; so
every displayed link has both ends among the displayed nodes, and every input
link with both ends displayed is displayed. -/
theorem C28_displayed_links_between_displayed (g : ViewGraph) (nodeLimit : Nat) :
    (limitedGraphData (some g) false nodeLimit).links =
      g.links.filter (fun link =>
        decide (endId link.source ∈
          (limitedGraphData (some g) false nodeLimit).nodes.map (fun n => n.id)) &&
        decide (endId link.target ∈
          (limitedGraphData (some g) false nodeLimit).nodes.map (fun n => n.id))) ∧
    (limitedGraphData (some g) false nodeLimit).links.Sublist g.links ∧
    (∀ link ∈ (limitedGraphData (some g) false nodeLimit).links,
      (∃ a ∈ (limitedGraphData (some g) false nodeLimit).nodes, a.id = endId link.source) ∧
      (∃ b ∈ (limitedGraphData (some g) false nodeLimit).nodes, b.id = endId link.target)) ∧
    (∀ link ∈ g.links,
      (∃ a ∈ (limitedGraphData (some g) false nodeLimit).nodes, a.id = endId link.source) →
      (∃ b ∈ (limitedGraphData (some g) false nodeLimit).nodes, b.id = endId link.target) →
      link ∈ (limitedGraphData (some g) false nodeLimit).links) := by
  have hl : (limitedGraphData (some g) false nodeLimit).links =
      g.links.filter (fun link =>
        decide (endId link.source ∈
          (limitedGraphData (some g) false nodeLimit).nodes.map (fun n => n.id)) &&
        decide (endId link.target ∈
          (limitedGraphData (some g) false nodeLimit).nodes.map (fun n => n.id))) := rfl
  refine ⟨hl, ?_, ?_, ?_⟩
  · rw [hl]
    exact List.filter_sublist _
  · intro link hlink
    rw [hl] at hlink
    have h := (List.mem_filter.1 hlink).2
    simp only [Bool.and_eq_true, decide_eq_true_eq, List.mem_map] at h
    obtain ⟨⟨a, ha, ea⟩, ⟨b, hb, eb⟩⟩ := h
    exact ⟨⟨a, ha, ea⟩, ⟨b, hb, eb⟩⟩
  · rintro link hlink ⟨a, ha, ea⟩ ⟨b, hb, eb⟩
    rw [hl]
    apply List.mem_filter.2
    refine ⟨hlink, ?_⟩
    simp only [Bool.and_eq_true, decide_eq_true_eq, List.mem_map]
    exact ⟨⟨a, ha, ea⟩, ⟨b, hb, eb⟩⟩

/-- C28, on the sample graph with `nodeLimit` 2: the links 1 -> 3 and 3 -> 1
are displayed, the link 2 -> 3 is not. -/
theorem C28_witness :
    (limitedGraphData (some sampleView) false 2).links.map
        (fun l => (endId l.source, endId l.target)) = [(1, 3), (3, 1)] ∧
    ∃ a ∈ (limitedGraphData (some sampleView) false 2).nodes, a.id = endId (LinkEnd.id 1) :=
  ⟨by decide,
    ((C28_displayed_links_between_displayed sampleView 2).2.2.1
      { source := .id 1, target := .id 3, type := "WROTE" } (by decide)).1⟩

/-! ## `App.handleSearch` -/

theorem isDigitOf_ten_iff (c : Char) :
    isDigitOf 10 c = true ↔ 48 ≤ c.toNat ∧ c.toNat ≤ 57 := by
  have h0 : '0'.toNat = 48 := by decide
  have h9 : '9'.toNat = 57 := by decide
  have ha : 'a'.toNat = 97 := by decide
  have hf : 'f'.toNat = 102 := by decide
  have hA : 'A'.toNat = 65 := by decide
  have hF : 'F'.toNat = 70 := by decide
  unfold isDigitOf digitValue
  rw [h0, h9, ha, hf, hA, hF]
  by_cases h1 : 48 ≤ c.toNat ∧ c.toNat ≤ 57
  · simp only [h1, and_self, if_true, decide_eq_true_eq, iff_true]
    omega
  · simp only [h1, if_false, iff_false]
    by_cases h2 : 97 ≤ c.toNat ∧ c.toNat ≤ 102
    · simp only [h2, and_self, if_true, decide_eq_true_eq]
      omega
    · simp only [h2, if_false]
      by_cases h3 : 65 ≤ c.toNat ∧ c.toNat ≤ 70
      · simp only [h3, and_self, if_true, decide_eq_true_eq]
        omega
      · simp [h3]

theorem isDigitString_iff (s : List Char) :
    isDigitString s = true ↔ s ≠ [] ∧ ∀ c ∈ s, 48 ≤ c.toNat ∧ c.toNat ≤ 57 := by
  unfold isDigitString
  simp only [Bool.and_eq_true, decide_eq_true_eq, List.all_eq_true, isDigitOf_ten_iff]

theorem nonDecimal_of_digits (cs : List Char) (h : ∀ c ∈ cs, isDigitOf 10 c = true) :
    nonDecimalIntegerLiteral cs = none := by
  unfold nonDecimalIntegerLiteral
  split
  · rename_i p ds
    have hp : isDigitOf 10 p = true := h p (by simp)
    have n1 : p ≠ 'x' := fun e => by rw [e] at hp; exact absurd hp (by decide)
    have n2 : p ≠ 'X' := fun e => by rw [e] at hp; exact absurd hp (by decide)
    have n3 : p ≠ 'o' := fun e => by rw [e] at hp; exact absurd hp (by decide)
    have n4 : p ≠ 'O' := fun e => by rw [e] at hp; exact absurd hp (by decide)
    have n5 : p ≠ 'b' := fun e => by rw [e] at hp; exact absurd hp (by decide)
    have n6 : p ≠ 'B' := fun e => by rw [e] at hp; exact absurd hp (by decide)
    simp [n1, n2, n3, n4, n5, n6]
  · rfl

theorem strUnsigned_of_digits (cs : List Char) (hne : cs ≠ [])
    (h : ∀ c ∈ cs, isDigitOf 10 c = true) :
    strUnsignedDecimalLiteral cs = .fin ((digitsValue 10 cs : Nat) : ℚ) := by
  have hinf : cs ≠ "Infinity".toList := by
    intro e
    have := h 'I' (by rw [e]; decide)
    exact absurd this (by decide)
  have htake : cs.takeWhile (isDigitOf 10) = cs := List.takeWhile_eq_self_iff.2 h
  have hdrop : cs.dropWhile (isDigitOf 10) = [] := List.dropWhile_eq_nil_iff.2 h
  unfold strUnsignedDecimalLiteral
  simp only [hinf, if_false, htake, hdrop, hne, false_and, List.append_nil, exponentPart,
    List.length_nil]
  simp [scale10, Rat.mkRat_one]

theorem number_of_digits (s : String)
    (h : isDigitString (trimWhiteSpace s.toList) = true) :
    Number s = .fin ((digitsValue 10 (trimWhiteSpace s.toList) : Nat) : ℚ) := by
  have hd : trimWhiteSpace s.toList ≠ [] ∧
      ∀ c ∈ trimWhiteSpace s.toList, isDigitOf 10 c = true := by
    unfold isDigitString at h
    simpa only [Bool.and_eq_true, decide_eq_true_eq, List.all_eq_true] using h
  unfold Number
  simp only [hd.1, if_false, nonDecimal_of_digits _ hd.2]
  split
  · rename_i t e
    have := hd.2 '+' (by rw [e]; simp)
    exact absurd this (by decide)
  · rename_i t e
    have := hd.2 '-' (by rw [e]; simp)
    exact absurd this (by decide)
  · exact strUnsigned_of_digits _ hd.1 hd.2

/-- C29: `handleSearch` opens the node-centered view, with `Number(term)` and
the given depth, exactly when the trimmed term is a non-empty string of the
ASCII digits 0..9 (code points 48..57); `Number(term)` is then the number the
digits write, as long as that number is at most 2^53 (larger ones are rounded
to a double by the engine, which is not represented here); for every other
term, among them the empty string, "-5" and "1.5", it runs the text search
with the term as given. -/
theorem C29_numeric_term_opens_node_view (searchTerm : String) (depth : Option Int) :
    (isDigitString (trimWhiteSpace searchTerm.toList) = true →
      handleSearch searchTerm depth = .nodeCentered (Number searchTerm) (depth.getD 1) ∧
      (digitsValue 10 (trimWhiteSpace searchTerm.toList) ≤ 2 ^ 53 →
        Number searchTerm =
          .fin ((digitsValue 10 (trimWhiteSpace searchTerm.toList) : Nat) : ℚ))) ∧
    (isDigitString (trimWhiteSpace searchTerm.toList) = false →
      handleSearch searchTerm depth = .textSearch searchTerm) ∧
    ((∃ (nodeId : JSNum) (d : Int), handleSearch searchTerm depth = .nodeCentered nodeId d) ↔
      trimWhiteSpace searchTerm.toList ≠ [] ∧
        ∀ c ∈ trimWhiteSpace searchTerm.toList, 48 ≤ c.toNat ∧ c.toNat ≤ 57) ∧
    handleSearch "" depth = .textSearch "" ∧
    handleSearch "-5" depth = .textSearch "-5" ∧
    handleSearch "1.5" depth = .textSearch "1.5" ∧
    handleSearch " 42 " none = .nodeCentered (.fin 42) 1 := by
  refine ⟨?_, ?_, ?_, ?_, ?_, ?_, by decide⟩
  · intro h
    exact ⟨by rw [handleSearch, if_pos h], fun _ => number_of_digits searchTerm h⟩
  · intro h
    rw [handleSearch, if_neg (by rw [h]; simp)]
  · rw [← isDigitString_iff]
    constructor
    · rintro ⟨nodeId, d, h⟩
      by_contra hc
      rw [handleSearch, if_neg hc] at h
      cases h
    · intro h
      exact ⟨_, _, by rw [handleSearch, if_pos h]⟩
  · simp only [handleSearch]
    rw [if_neg (by decide)]
  · simp only [handleSearch]
    rw [if_neg (by decide)]
  · simp only [handleSearch]
    rw [if_neg (by decide)]

/-- C29, on the terms " 007 " and "12a". -/
theorem C29_witness :
    handleSearch " 007 " (some 2) = .nodeCentered (Number " 007 ") 2 ∧
    Number " 007 " = .fin ((digitsValue 10 (trimWhiteSpace " 007 ".toList) : Nat) : ℚ) ∧
    handleSearch "12a" (some 2) = .textSearch "12a" :=
  ⟨((C29_numeric_term_opens_node_view " 007 " (some 2)).1 (by decide)).1,
    ((C29_numeric_term_opens_node_view " 007 " (some 2)).1 (by decide)).2 (by decide),
    (C29_numeric_term_opens_node_view "12a" (some 2)).2.1 (by decide)⟩

/-! ## `Poems.highlightText` -/

theorem readAtoms_escapeRegExp (q : List Char) :
    readAtoms false (escapeRegExp q) = some q := by
  have hb : isSyntaxCharacter backslash = true := by decide
  induction q with
  | nil => rfl
  | cons c rest ih =>
    have hcons : escapeRegExp (c :: rest) =
        (if isSyntaxCharacter c then [backslash, c] else [c]) ++ escapeRegExp rest := by
      simp [escapeRegExp, List.flatMap_cons]
    rw [hcons]
    by_cases hs : isSyntaxCharacter c = true
    · simp [hs, readAtoms, ih]
    · have hne : c ≠ backslash := fun e => hs (e ▸ hb)
      simp [hs, readAtoms, hne, ih]

theorem readGroup_highlightPattern (q : List Char) :
    readGroup (highlightPattern q) = some q := by
  unfold readGroup highlightPattern
  simp
  exact readAtoms_escapeRegExp q

theorem matchesAt_length (canonicalize : Char → Char) (needle : List Char) :
    ∀ text : List Char, matchesAt canonicalize needle text = true →
      needle.length ≤ text.length := by
  induction needle with
  | nil => intro text _; simp
  | cons n ns ih =>
    intro text h
    cases text with
    | nil => simp [matchesAt] at h
    | cons t ts =>
      simp only [matchesAt, Bool.and_eq_true, decide_eq_true_eq] at h
      have := ih ts h.2
      simp only [List.length_cons]
      omega

theorem matchesAt_take (canonicalize : Char → Char) (needle : List Char) :
    ∀ text : List Char, matchesAt canonicalize needle text = true →
      (text.take needle.length).map canonicalize = needle.map canonicalize := by
  induction needle with
  | nil => intro text _; simp
  | cons n ns ih =>
    intro text h
    cases text with
    | nil => simp [matchesAt] at h
    | cons t ts =>
      simp only [matchesAt, Bool.and_eq_true, decide_eq_true_eq] at h
      simp only [List.length_cons, List.take_succ_cons, List.map_cons, ih ts h.2, h.1]

theorem flatten_splitLoop (canonicalize : Char → Char) (needle : List Char) (hn : needle ≠ [])
    (text : List Char) :
    ∀ (skip : Nat) (segment : List Char), skip ≤ text.length →
      (splitLoop canonicalize needle skip segment text).flatten =
        segment.reverse ++ text.drop skip := by
  induction text with
  | nil =>
    intro skip segment h
    have h0 : skip = 0 := by simpa using h
    subst h0
    simp [splitLoop]
  | cons c cs ih =>
    intro skip segment h
    cases skip with
    | succ k =>
      rw [splitLoop, ih k segment (by simpa using h)]
      rfl
    | zero =>
      rw [splitLoop]
      by_cases hm : matchesAt canonicalize needle (c :: cs) = true
      · rw [if_pos hm]
        obtain ⟨m, hmlen⟩ : ∃ m, needle.length = m + 1 := by
          cases needle with
          | nil => exact absurd rfl hn
          | cons a as => exact ⟨as.length, rfl⟩
        have hle := matchesAt_length canonicalize needle (c :: cs) hm
        have hk : m ≤ cs.length := by
          simp only [List.length_cons] at hle
          omega
        simp only [List.flatten_cons, hmlen, Nat.add_sub_cancel, ih m [] hk, List.reverse_nil,
          List.nil_append, List.take_succ_cons, List.drop_zero, List.cons_append,
          List.take_append_drop]
      · rw [if_neg hm, ih 0 (c :: segment) (Nat.zero_le _)]
        simp

theorem matchedParts_splitLoop (canonicalize : Char → Char) (needle text : List Char) :
    ∀ (skip : Nat) (segment : List Char),
      ∀ m ∈ matchedParts (splitLoop canonicalize needle skip segment text),
        m.length = needle.length ∧ m.map canonicalize = needle.map canonicalize := by
  induction text with
  | nil =>
    intro skip segment m hm
    cases skip <;> simp [splitLoop, matchedParts] at hm
  | cons c cs ih =>
    intro skip segment m hm
    cases skip with
    | succ k =>
      rw [splitLoop] at hm
      exact ih k segment m hm
    | zero =>
      rw [splitLoop] at hm
      by_cases h : matchesAt canonicalize needle (c :: cs) = true
      · rw [if_pos h] at hm
        simp only [matchedParts, List.mem_cons] at hm
        rcases hm with e | hm
        · subst e
          have hle := matchesAt_length canonicalize needle (c :: cs) h
          exact ⟨by rw [List.length_take]; omega, matchesAt_take canonicalize needle (c :: cs) h⟩
        · exact ih _ _ m hm
      · rw [if_neg h] at hm
        exact ih 0 (c :: segment) m hm

/-- C30: whatever the two case mappings of the engine are, for every
non-empty text and non-empty query the pattern built from the escaped query is
read as the capture of the literal query, whatever characters it holds;
`highlightText` returns parts whose contents, put together in order, are the
text unchanged; a part is a `<mark>` exactly when its `toLowerCase` equals that
of the query; and every matched occurrence (the parts at the odd positions)
has the length of the query and agrees with it character by character under
the mapping of the flag `i`. -/
theorem C30_highlight_parts_rebuild_text (canonicalize : Char → Char)
    (toLowerCase : List Char → List Char) (text q : List Char)
    (hq : q ≠ []) (ht : text ≠ []) :
    readGroup (highlightPattern q) = some q ∧
    (∃ ps : List (Bool × List Char),
      highlightText canonicalize toLowerCase text q = some (.parts ps) ∧
      ps.map (fun p => p.2) = splitLoop canonicalize q 0 [] text ∧
      (ps.map (fun p => p.2)).flatten = text ∧
      (∀ p ∈ ps, (p.1 = true ↔ toLowerCase p.2 = toLowerCase q)) ∧
      ∀ m ∈ matchedParts (ps.map (fun p => p.2)),
        m.length = q.length ∧ m.map canonicalize = q.map canonicalize) := by
  refine ⟨readGroup_highlightPattern q, ?_⟩
  refine ⟨(splitLoop canonicalize q 0 [] text).map
    (fun part => (decide (toLowerCase part = toLowerCase q), part)), ?_, ?_, ?_, ?_, ?_⟩
  · simp [highlightText, hq, ht, readGroup_highlightPattern]
  · simp [List.map_map, Function.comp_def]
  · have h := flatten_splitLoop canonicalize q hq text 0 [] (Nat.zero_le _)
    simpa [List.map_map, Function.comp_def] using h
  · intro p hp
    obtain ⟨part, _, rfl⟩ := List.mem_map.1 hp
    simp
  · intro m hm
    have e : ((splitLoop canonicalize q 0 [] text).map
        (fun part => (decide (toLowerCase part = toLowerCase q), part))).map (fun p => p.2) =
        splitLoop canonicalize q 0 [] text := by
      simp [List.map_map, Function.comp_def]
    rw [e] at hm
    exact matchedParts_splitLoop canonicalize q text 0 [] m hm

/-- C30, with the mappings of ASCII, on the text "a.b" and the query ".": the
dot is matched as a dot (the parts are "a", ".", "b", the middle one marked),
not as any character; and on the text "Ab.a" and the query "a": both
occurrences are matched and marked. -/
theorem C30_witness :
    readGroup (highlightPattern ".".toList) = some ".".toList ∧
    highlightText asciiCanonicalize asciiToLowerCase "a.b".toList ".".toList =
      some (.parts [(false, "a".toList), (true, ".".toList), (false, "b".toList)]) ∧
    ["a".toList, ".".toList, "b".toList].flatten = "a.b".toList ∧
    highlightText asciiCanonicalize asciiToLowerCase "Ab.a".toList "a".toList =
      some (.parts [(false, []), (true, "A".toList), (false, "b.".toList),
        (true, "a".toList), (false, [])]) := by
  have h := C30_highlight_parts_rebuild_text asciiCanonicalize asciiToLowerCase
    "a.b".toList ".".toList (by decide) (by decide)
  exact ⟨h.1, by decide, by decide, by decide⟩

end KnowledgeGraph
